import Mathlib

/-!
Verification development for the Airbnb SEO research pipeline
(`seo_research.py`).  The Python source is shallowly embedded: JSON
payloads become the inductive `JSON`, Python dicts holding record fields
become association lists, fallible statements become `Except Unit`
(where `Except.error ()` models an uncaught Python exception) and the
network is abstracted as oracles (one response per page request, one
optional detail payload per listing id).  Machine-level caveats of the
embedding: JSON numbers are modelled as integers (the claims under
study never exercise float payload values), and `pyLower` models
Python `str.lower` on the ASCII range (every keyword of the classifier
table is already lower-case).
-/

/-- JSON values as produced by `response.json()` / `pyairbnb.get_details`.
Python `None` is `JSON.null`; dicts keep their insertion order. -/
inductive JSON where
  | null : JSON
  | bool (b : Bool) : JSON
  | num (n : Int) : JSON
  | str (s : String) : JSON
  | arr (elems : List JSON) : JSON
  | obj (fields : List (String × JSON)) : JSON

/-- A Python dict used as a flat record: ordered key/value pairs. -/
abbrev Dict := List (String × JSON)

/-- First binding of a key in an ordered field list (parsed JSON objects
have unique keys, so first = only). -/
def lookupField : List (String × JSON) → String → Option JSON
  | [], _ => none
  | (k, v) :: rest, key => if k == key then some v else lookupField rest key

/-- Python `d.get(key, default)` on a field list. -/
def objGetD (fields : List (String × JSON)) (key : String) (dflt : JSON) : JSON :=
  (lookupField fields key).getD dflt

/-- Python truthiness of a JSON value (`if x:`). -/
def truthy : JSON → Bool
  | JSON.null => false
  | JSON.bool b => b
  | JSON.num n => n != 0
  | JSON.str s => !s.isEmpty
  | JSON.arr l => !l.isEmpty
  | JSON.obj l => !l.isEmpty

/-- Python `x or y` on JSON values: `x` when `x` is truthy, else `y`. -/
def pyOrElse (x y : JSON) : JSON := if truthy x then x else y

mutual
/-- Python `str()` of a JSON value (integers, strings, booleans, None;
containers rendered in Python list/dict style, strings inside them with
single quotes). -/
def pyStr : JSON → String
  | JSON.null => "None"
  | JSON.bool true => "True"
  | JSON.bool false => "False"
  | JSON.num n => toString n
  | JSON.str s => s
  | JSON.arr l => "[" ++ pyStrList l ++ "]"
  | JSON.obj l => "\x7b" ++ pyStrFields l ++ "\x7d"

/-- Comma-joined `repr` of list elements. -/
def pyStrList : List JSON → String
  | [] => ""
  | [x] => pyRepr x
  | x :: rest => pyRepr x ++ ", " ++ pyStrList rest

/-- Comma-joined `repr` of dict items. -/
def pyStrFields : List (String × JSON) → String
  | [] => ""
  | [(k, v)] => "\x27" ++ k ++ "\x27: " ++ pyRepr v
  | (k, v) :: rest => "\x27" ++ k ++ "\x27: " ++ pyRepr v ++ ", " ++ pyStrFields rest

/-- Python `repr()` of a JSON value (strings quoted). -/
def pyRepr : JSON → String
  | JSON.str s => "\x27" ++ s ++ "\x27"
  | j => pyStr j
end

/-- Leading-run test over char lists (used for substring search). -/
def chLeads : List Char → List Char → Bool
  | [], _ => true
  | _ :: _, [] => false
  | a :: as, b :: bs => a == b && chLeads as bs

/-- Substring occurrence over char lists. -/
def chOccurs (needle : List Char) : List Char → Bool
  | [] => chLeads needle []
  | c :: rest => chLeads needle (c :: rest) || chOccurs needle rest

/-- Python `needle in hay` for strings (substring containment). -/
def strHas (hay needle : String) : Bool :=
  chOccurs needle.data hay.data

/-- Python `any(x in s for x in keywords)`. -/
def anyKey (s : String) (keywords : List String) : Bool :=
  keywords.any (fun k => strHas s k)

/-- ASCII lower-casing of one character (A-Z shifted by 32). -/
def pyLowerChar (c : Char) : Char :=
  if 65 ≤ c.toNat ∧ c.toNat ≤ 90 then Char.ofNat (c.toNat + 32) else c

/-- Python `str.lower` (ASCII range; the classifier keywords are
already lower-case, and accented letters pass through unchanged on the
inputs exercised here). -/
def pyLower (s : String) : String := String.mk (s.data.map pyLowerChar)

/-! ## Base64 (the `base64.b64decode` call of `search_listings`)

`b64decode` is modelled over byte lists.  Python first ASCII-encodes the
argument (non-ASCII raises), then — with the default `validate=False` —
hands the bytes to non-strict `binascii.a2b_base64` (CPython 3.11 state
machine): characters outside the alphabet are skipped, a padding
character completing a quad of two or three data characters ends
decoding successfully (any later input ignored), other padding
characters are skipped, and only a quad left incomplete at the end of
the input raises `binascii.Error`. -/

/-- The base64 alphabet character for a sextet. -/
def b64Char (n : Nat) : Char :=
  if n < 26 then Char.ofNat (65 + n)
  else if n < 52 then Char.ofNat (97 + (n - 26))
  else if n < 62 then Char.ofNat (48 + (n - 52))
  else if n = 62 then '+'
  else '/'

/-- Sextet value of a base64 alphabet character, absence otherwise. -/
def b64Val (c : Char) : Option Nat :=
  if 65 ≤ c.toNat ∧ c.toNat ≤ 90 then some (c.toNat - 65)
  else if 97 ≤ c.toNat ∧ c.toNat ≤ 122 then some (c.toNat - 97 + 26)
  else if 48 ≤ c.toNat ∧ c.toNat ≤ 57 then some (c.toNat - 48 + 52)
  else if c = '+' then some 62
  else if c = '/' then some 63
  else none

/-- Standard base64 encoding of a byte list. -/
def b64EncodeList : List Nat → List Char
  | [] => []
  | [b0] => [b64Char (b0 / 4), b64Char (b0 % 4 * 16), '=', '=']
  | [b0, b1] => [b64Char (b0 / 4), b64Char (b0 % 4 * 16 + b1 / 16),
      b64Char (b1 % 16 * 4), '=']
  | b0 :: b1 :: b2 :: rest =>
      b64Char (b0 / 4) :: b64Char (b0 % 4 * 16 + b1 / 16) ::
      b64Char (b1 % 16 * 4 + b2 / 64) :: b64Char (b2 % 64) :: b64EncodeList rest

/-- Base64 encoding as a string. -/
def b64EncodeString (bs : List Nat) : String := String.mk (b64EncodeList bs)

/-- The non-strict `binascii.a2b_base64` loop (CPython 3.11): `quadPos`
counts data characters in the current quad, `leftchar` the pending
bits, `pads` the consecutive padding characters seen since the last
data character.  A data character emits a byte at quad positions 1, 2
and 3; a non-alphabet character is skipped; a padding character at quad
position 2 (second of a pair) or 3 ends decoding successfully, ignoring
all remaining input; at quad positions 0 and 1 it is skipped.  A quad
left incomplete at the end of the input is `binascii.Error`. -/
def b64DecodeLoop : List Char → Nat → Nat → Nat → List Nat → Option (List Nat)
  | [], quadPos, _, _, acc => if quadPos = 0 then some acc else none
  | c :: rest, quadPos, leftchar, pads, acc =>
    if c == '=' then
      if 2 ≤ quadPos ∧ 4 ≤ quadPos + (pads + 1) then some acc
      else if 2 ≤ quadPos then b64DecodeLoop rest quadPos leftchar (pads + 1) acc
      else b64DecodeLoop rest quadPos leftchar pads acc
    else
      match b64Val c with
      | none => b64DecodeLoop rest quadPos leftchar pads acc
      | some v =>
        match quadPos with
        | 0 => b64DecodeLoop rest 1 v 0 acc
        | 1 => b64DecodeLoop rest 2 (v % 16) 0 (acc ++ [leftchar * 4 + v / 16])
        | 2 => b64DecodeLoop rest 3 (v % 4) 0 (acc ++ [leftchar * 16 + v / 4])
        | _ => b64DecodeLoop rest 0 0 0 (acc ++ [leftchar * 64 + v])

/-- Python `base64.b64decode` on a `str` argument with the default
`validate=False`: ASCII check (non-ASCII raises before decoding), then
the non-strict `a2b_base64` loop; absence models the raised errors. -/
def b64DecodeString (s : String) : Option (List Nat) :=
  if s.data.all (fun c => c.toNat < 128) then
    b64DecodeLoop s.data 0 0 0 []
  else none

/-! ## UTF-8 (the `.decode("utf-8")` call)

Strict UTF-8 as Python's `bytes.decode("utf-8")`: rejects overlong
forms, surrogates and values above `U+10FFFF`. -/

/-- UTF-8 encoding of one scalar value. -/
def utf8EncodeNat (v : Nat) : List Nat :=
  if v < 128 then [v]
  else if v < 2048 then [192 + v / 64, 128 + v % 64]
  else if v < 65536 then [224 + v / 4096, 128 + v / 64 % 64, 128 + v % 64]
  else [240 + v / 262144, 128 + v / 4096 % 64, 128 + v / 64 % 64, 128 + v % 64]

/-- UTF-8 encoding of a char list. -/
def utf8EncodeList : List Char → List Nat
  | [] => []
  | c :: cs => utf8EncodeNat c.toNat ++ utf8EncodeList cs

/-- UTF-8 encoding of a string as a byte list. -/
def utf8EncodeString (s : String) : List Nat := utf8EncodeList s.data

/-- Decode one UTF-8 scalar from the head of a byte list (strict:
no overlong forms, no surrogates, max U+10FFFF). -/
def utf8DecodeOne : List Nat → Option (Nat × List Nat)
  | [] => none
  | b0 :: rest =>
    if b0 < 128 then some (b0, rest)
    else if b0 < 194 then none
    else if b0 < 224 then
      match rest with
      | b1 :: rest1 =>
        if 128 ≤ b1 ∧ b1 < 192 then some ((b0 - 192) * 64 + (b1 - 128), rest1)
        else none
      | [] => none
    else if b0 < 240 then
      match rest with
      | b1 :: b2 :: rest2 =>
        let lo1 := if b0 = 224 then 160 else 128
        let hi1 := if b0 = 237 then 160 else 192
        if lo1 ≤ b1 ∧ b1 < hi1 ∧ 128 ≤ b2 ∧ b2 < 192 then
          some ((b0 - 224) * 4096 + (b1 - 128) * 64 + (b2 - 128), rest2)
        else none
      | _ => none
    else if b0 < 245 then
      match rest with
      | b1 :: b2 :: b3 :: rest3 =>
        let lo1 := if b0 = 240 then 144 else 128
        let hi1 := if b0 = 244 then 144 else 192
        if lo1 ≤ b1 ∧ b1 < hi1 ∧ 128 ≤ b2 ∧ b2 < 192 ∧ 128 ≤ b3 ∧ b3 < 192 then
          some ((b0 - 240) * 262144 + (b1 - 128) * 4096 + (b2 - 128) * 64 + (b3 - 128),
            rest3)
        else none
      | _ => none
    else none

/-- Fuel-driven UTF-8 decoding of a whole byte list to scalar values
(one byte of fuel suffices per scalar). -/
def utf8DecodeAux : Nat → List Nat → Option (List Nat)
  | _, [] => some []
  | 0, _ :: _ => none
  | fuel + 1, b :: bs =>
    match utf8DecodeOne (b :: bs) with
    | none => none
    | some (v, rest) =>
      match utf8DecodeAux fuel rest with
      | none => none
      | some vs => some (v :: vs)

/-- Python `bytes.decode("utf-8")`: absence models `UnicodeDecodeError`. -/
def utf8DecodeString (bs : List Nat) : Option String :=
  (utf8DecodeAux bs.length bs).map (fun vs => String.mk (vs.map Char.ofNat))

/-! ## Python `str.split` on a separator character -/

/-- Accumulating splitter: `cur` holds the reversed current field. -/
def splitAccum (sep : Char) : List Char → List Char → List (List Char)
  | [], cur => [cur.reverse]
  | c :: cs, cur =>
    if c == sep then cur.reverse :: splitAccum sep cs []
    else splitAccum sep cs (c :: cur)

/-- Python `s.split(sep)` for a one-character separator. -/
def pySplit (s : String) (sep : Char) : List String :=
  (splitAccum sep s.data []).map String.mk

/-! ## IdentifierCodec

The decoding side is the body of the inner `try` of `search_listings`
(lines 233-238): base64-decode the opaque id, UTF-8 decode, and take
field 1 of the colon-split; any exception is swallowed, leaving the
listing id absent. -/

/-- The decode arm of the codec: `base64.b64decode(encoded_id).decode("utf-8")`
followed by `decoded.split(":")[1]` when a colon is present.  Absence
models every swallowed exception (non-string id, bad base64, bad UTF-8)
and the no-colon case. -/
def decodeRoomId (encoded : JSON) : Option String :=
  match encoded with
  | JSON.str s =>
    match b64DecodeString s with
    | none => none
    | some bytes =>
      match utf8DecodeString bytes with
      | none => none
      | some decoded =>
        if decoded.data.contains ':' then some ((pySplit decoded ':').getD 1 "")
        else none
  | _ => none

/-- Modelled from the spec: the encoding side of IdentifierCodec is not
in the repository (the opaque ids come from the upstream service); §4.1
and §8 define it as the reversible base64 encoding of the composite key
`<namespace>:<listing_id>`. -/
def encodeId (ns id : String) : String :=
  b64EncodeString (utf8EncodeString (ns ++ ":" ++ id))

/-! ## SearchPaginator (`search_listings`, lines 97-304) -/

/-- Hard page cap (`MAX_PAGES = 15`). -/
def MAX_PAGES : Nat := 15

/-- One upstream answer to a search POST: a raised transport error, or
an HTTP response with a status code and a body (`none` when
`response.json()` raises). -/
inductive PageResponse where
  | transportError : PageResponse
  | httpResponse (status : Nat) (body : Option JSON) : PageResponse

/-- Python attribute access pattern `x.get(...)` requires a dict. -/
def asObj : JSON → Except Unit (List (String × JSON))
  | JSON.obj fields => Except.ok fields
  | _ => Except.error ()

/-- Python `x.get(key, dflt)`: raises (`error`) when `x` is not a dict. -/
def getAttrD (j : JSON) (key : String) (dflt : JSON) : Except Unit JSON :=
  match j with
  | JSON.obj fields => Except.ok (objGetD fields key dflt)
  | _ => Except.error ()

/-- Python `for x in v`: lists yield elements, strings their characters,
dicts their keys; other values raise. -/
def pyIter : JSON → Except Unit (List JSON)
  | JSON.arr xs => Except.ok xs
  | JSON.str s => Except.ok (s.data.map (fun c => JSON.str (String.mk [c])))
  | JSON.obj fs => Except.ok (fs.map (fun p => JSON.str p.1))
  | _ => Except.error ()

/-- Python `"errors" in data`: key membership for dicts, element
membership for lists, substring for strings; other values raise. -/
def hasErrorsKey : JSON → Except Unit Bool
  | JSON.obj fs => Except.ok (lookupField fs "errors").isSome
  | JSON.arr xs =>
      Except.ok (xs.any (fun x => match x with
        | JSON.str s => s == "errors"
        | _ => false))
  | JSON.str s => Except.ok (strHas s "errors")
  | _ => Except.error ()

/-- ASCII whitespace matched by the regex class in `search_listings`. -/
def pyIsSpace (c : Char) : Bool :=
  c == ' ' || c == '\t' || c == '\n' || c == '\x0d' || c == '\x0b' || c == '\x0c'

/-- Digit-or-dot class of the rating pattern. -/
def isDigitDot (c : Char) : Bool := c.isDigit || c == '.'

/-- The rating parser of lines 250-260: try the anchored pattern
`([0-9.]+)[space]*\(([0-9]+)\)` (no backtracking can help, the three
sub-languages are disjoint), else the anchored all-digit-dot pattern
(which tolerates one trailing newline and keeps the raw string). -/
def parseRating (s : String) : String × String :=
  let ds := s.data.takeWhile isDigitDot
  let fallback : String × String :=
    if (!s.data.isEmpty && s.data.all isDigitDot)
        || (!s.data.dropLast.isEmpty && s.data.dropLast.all isDigitDot
            && s.data.getLast? == some '\n') then
      (s, "")
    else ("", "")
  if ds.isEmpty then fallback
  else
    let r1 := s.data.drop ds.length
    let r2 := r1.dropWhile pyIsSpace
    match r2 with
    | '(' :: r3 =>
      let cnt := r3.takeWhile Char.isDigit
      if !cnt.isEmpty && (r3.drop cnt.length).head? == some ')' then
        (String.mk ds, String.mk cnt)
      else fallback
    | _ => fallback

/-- The badge scan of lines 263-269: stops at the first badge whose
`loggingContext.badgeType` is `GUEST_FAVORITE`; non-dict badges and
non-dict logging contexts raise. -/
def findGuestFavorite : List JSON → Except Unit Bool
  | [] => Except.ok false
  | badge :: rest =>
    match badge with
    | JSON.obj bo =>
      match objGetD bo "loggingContext" (JSON.obj []) with
      | JSON.obj lco =>
        match lookupField lco "badgeType" with
        | some (JSON.str s) =>
          if s == "GUEST_FAVORITE" then Except.ok true else findGuestFavorite rest
        | _ => findGuestFavorite rest
      | _ => Except.error ()
    | _ => Except.error ()

/-- Lines 228-238: the listing-id step of one raw result (the `dsl`
truthiness test, the `id` truthiness test, and the swallowed decode). -/
def ridStepOf (robj : List (String × JSON)) : Except Unit (Option String) :=
  if truthy (objGetD robj "demandStayListing" (JSON.obj [])) then
    match objGetD robj "demandStayListing" (JSON.obj []) with
    | JSON.obj dslo =>
      if truthy (objGetD dslo "id" (JSON.str "")) then
        Except.ok (decodeRoomId (objGetD dslo "id" (JSON.str "")))
      else Except.ok none
    | _ => Except.error ()
  else Except.ok none

/-- Lines 244-248: the price step (discounted price over base price). -/
def priceStepOf (robj : List (String × JSON)) : Except Unit JSON :=
  if truthy (objGetD robj "structuredDisplayPrice" (JSON.obj [])) then
    match objGetD robj "structuredDisplayPrice" (JSON.obj []) with
    | JSON.obj spo =>
      match objGetD spo "primaryLine" (JSON.obj []) with
      | JSON.obj plo =>
        Except.ok (pyOrElse (objGetD plo "discountedPrice" JSON.null)
          (objGetD plo "price" JSON.null))
      | _ => Except.error ()
    | _ => Except.error ()
  else Except.ok JSON.null

/-- Lines 250-260: the rating step (pattern matching on the combined
`value (count)` text; a truthy non-string raises in `re.match`). -/
def ratingStepOf (robj : List (String × JSON)) : Except Unit (String × String) :=
  if truthy (objGetD robj "avgRatingLocalized" (JSON.str "")) then
    match objGetD robj "avgRatingLocalized" (JSON.str "") with
    | JSON.str rs => Except.ok (parseRating rs)
    | _ => Except.error ()
  else Except.ok ("", "")

/-- Processing of one raw search result (lines 224-280), after the
caller has already incremented the global position counter; `ok none`
is `continue` (result dropped), `error` an exception reaching the outer
`try` of `search_listings`. -/
def processResult (result : JSON) (position page : Nat) : Except Unit (Option Dict) :=
  match asObj result with
  | Except.error _ => Except.error ()
  | Except.ok robj =>
    match ridStepOf robj with
    | Except.error _ => Except.error ()
    | Except.ok none => Except.ok none
    | Except.ok (some rid) =>
      if rid.isEmpty then Except.ok none
      else
        match priceStepOf robj with
        | Except.error _ => Except.error ()
        | Except.ok price =>
          match ratingStepOf robj with
          | Except.error _ => Except.error ()
          | Except.ok (avg, cnt) =>
            match pyIter (objGetD robj "badges" (JSON.arr [])) with
            | Except.error _ => Except.error ()
            | Except.ok badgeItems =>
              match findGuestFavorite badgeItems with
              | Except.error _ => Except.error ()
              | Except.ok gf =>
                Except.ok (some [("position", JSON.num position),
                  ("page", JSON.num page),
                  ("room_id", JSON.str rid),
                  ("title", pyOrElse (objGetD robj "title" (JSON.str ""))
                    (objGetD robj "subtitle" (JSON.str ""))),
                  ("price", price),
                  ("avg_rating_search", JSON.str avg),
                  ("reviews_count_search", JSON.str cnt),
                  ("is_guest_favorite_search", JSON.bool gf)])

/-- The per-page result loop (lines 224-280): the counter is bumped
once per raw result before its identifier is examined; an exception
anywhere discards the whole page. -/
def processResults : List JSON → Nat → Nat → Except Unit (Nat × List Dict)
  | [], pos, _ => Except.ok (pos, [])
  | r :: rest, pos, page =>
    match processResult r (pos + 1) page with
    | Except.error _ => Except.error ()
    | Except.ok recOpt =>
      match processResults rest (pos + 1) page with
      | Except.error _ => Except.error ()
      | Except.ok (finalPos, recs) =>
        Except.ok (finalPos,
          match recOpt with
          | some d => d :: recs
          | none => recs)

/-- The `.get` chain of lines 218-219 down to the `results` node. -/
def resultsNode (data : JSON) : Except Unit JSON :=
  match getAttrD data "data" (JSON.obj []) with
  | Except.error _ => Except.error ()
  | Except.ok d1 =>
    match getAttrD d1 "presentation" (JSON.obj []) with
    | Except.error _ => Except.error ()
    | Except.ok d2 =>
      match getAttrD d2 "staysSearch" (JSON.obj []) with
      | Except.error _ => Except.error ()
      | Except.ok ss => getAttrD ss "results" (JSON.obj [])

/-- Lines 290-293: `results.get("paginationInfo", {}).get("nextPageCursor")`
tested for truthiness. -/
def nextCursorTruthy (results : JSON) : Except Unit Bool :=
  match getAttrD results "paginationInfo" (JSON.obj []) with
  | Except.error _ => Except.error ()
  | Except.ok pinfo =>
    match getAttrD pinfo "nextPageCursor" JSON.null with
    | Except.error _ => Except.error ()
    | Except.ok cursor => Except.ok (truthy cursor)

/-- The paginated `while` loop of `search_listings`; `fuel` is the
remaining page budget, `pos` the global position counter, `acc` the
accumulated `all_listings`.  Every exception path of the Python body is
a branch returning `acc` unchanged (the enclosing `try` returns
`all_listings`), mirroring lines 193-304. -/
def searchGo (pages : Nat → PageResponse) : Nat → Nat → Nat → List Dict → List Dict
  | 0, _, _, acc => acc
  | fuel + 1, pageCount, pos, acc =>
    let pc := pageCount + 1
    match pages pc with
    | PageResponse.transportError => acc
    | PageResponse.httpResponse status body =>
      if status ≠ 200 then acc
      else
        match body with
        | none => acc
        | some data =>
          match hasErrorsKey data with
          | Except.error _ => acc
          | Except.ok true => acc
          | Except.ok false =>
            match resultsNode data with
            | Except.error _ => acc
            | Except.ok results =>
              match getAttrD results "searchResults" (JSON.arr []) with
              | Except.error _ => acc
              | Except.ok srJ =>
                match pyIter srJ with
                | Except.error _ => acc
                | Except.ok items =>
                  match processResults items pos pc with
                  | Except.error _ => acc
                  | Except.ok (pos2, pageListings) =>
                    let acc2 := acc ++ pageListings
                    if pageListings.isEmpty then acc2
                    else
                      match nextCursorTruthy results with
                      | Except.error _ => acc2
                      | Except.ok false => acc2
                      | Except.ok true => searchGo pages fuel pc pos2 acc2

/-- `search_listings(check_in, check_out, guests)`: the network is an
oracle giving the response to the n-th POST (the request parameters,
dates and echoed cursor only shape what the upstream answers, which the
oracle already embodies). -/
def search_listings (pages : Nat → PageResponse) (check_in check_out : String)
    (guests : Nat) : List Dict :=
  searchGo pages MAX_PAGES 0 0 []

/-! ## DetailNormalizer (`extract_details`, lines 325-775)

Helper components first, in source order; the final record is assembled
by `buildDetails` with the dict-literal key order (in-place updates of
a Python dict never reorder keys). -/

/-- Join a string list with a separator. -/
def joinSep (sep : String) : List String → String
  | [] => ""
  | [x] => x
  | x :: rest => x ++ sep ++ joinSep sep rest

/-- The `sub_description.items` scan (lines 487-498): leading-digit
items update bedrooms / beds / bathrooms, later items overwrite
earlier ones. -/
def subDescFold : List JSON → String × String × String → String × String × String
  | [], acc => acc
  | item :: rest, (bd, be, ba) =>
    subDescFold rest
      (match item with
       | JSON.str s =>
         let sl := pyLower s
         let digits := s.data.takeWhile Char.isDigit
         if digits.isEmpty then (bd, be, ba)
         else
           let num := String.mk digits
           if strHas sl "bedroom" then (num, be, ba)
           else if strHas sl "bed" && !strHas sl "bedroom" then (bd, num, ba)
           else if strHas sl "bath" then (bd, be, num)
           else (bd, be, ba)
       | _ => (bd, be, ba))

/-- The bedrooms/beds/bathrooms triple from the payload (lines 483-498). -/
def subDescTriple (dobj : List (String × JSON)) : String × String × String :=
  match objGetD dobj "sub_description" (JSON.obj []) with
  | JSON.obj sdo =>
    if (JSON.obj sdo) |> truthy then
      match objGetD sdo "items" (JSON.arr []) with
      | JSON.arr items => subDescFold items ("", "", "")
      | _ => ("", "", "")
    else ("", "", "")
  | _ => ("", "", "")

/-- One sub-rating field (lines 503-518): stringified when present and
not `None`. -/
def ratingField (ro : List (String × JSON)) (key : String) : Option String :=
  match objGetD ro key JSON.null with
  | JSON.null => none
  | v => some (pyStr v)

/-- The `rating` sub-object when it is a truthy dict (line 502). -/
def ratingObj (dobj : List (String × JSON)) : Option (List (String × JSON)) :=
  match objGetD dobj "rating" JSON.null with
  | JSON.obj ro => if (JSON.obj ro) |> truthy then some ro else none
  | _ => none

/-- The `host` sub-object when it is a truthy dict (line 521-522). -/
def hostObj (dobj : List (String × JSON)) : Option (List (String × JSON)) :=
  match objGetD dobj "host" JSON.null with
  | JSON.obj ho => if (JSON.obj ho) |> truthy then some ho else none
  | _ => none

/-- The highlights scan (lines 534-550): the last matching "top N%"
highlight wins; non-dict highlights are skipped. -/
def topPercentFold : List JSON → String → String
  | [], tp => tp
  | h :: rest, tp =>
    topPercentFold rest
      (match h with
       | JSON.obj ho =>
         let title := objGetD ho "title" (JSON.str "")
         let subtitle := objGetD ho "subtitle" (JSON.str "")
         let combined := pyLower (pyStr title ++ " " ++ pyStr subtitle)
         if strHas combined "top 1%" then "1"
         else if strHas combined "top 5%" then "5"
         else if strHas combined "top 10%" then "10"
         else tp
       | _ => tp)

/-- `top_percent` from the payload (lines 534-550). -/
def topPercent (dobj : List (String × JSON)) : String :=
  match objGetD dobj "highlights" (JSON.arr []) with
  | JSON.arr hs => topPercentFold hs ""
  | _ => ""

/-- The badges string (lines 553-561): fixed order, `" | "` separator,
absent conditions contribute nothing. -/
def badgesString (superhost guestFav : Bool) (tp : String) : String :=
  joinSep " | "
    ((if superhost then ["Superhost"] else []) ++
     (if guestFav then ["Guest Favorite"] else []) ++
     (if !tp.isEmpty then ["Top " ++ tp ++ "%"] else []))

/-- The nested host-profile instant-book path (lines 568-580):
`host_details.data.presentation.userProfileContainer.userProfile.managedListings[0].instantBookEnabled`;
any shape mismatch is swallowed by the enclosing `try` and yields
`False`. -/
def ibNested (dobj : List (String × JSON)) : Bool :=
  match objGetD dobj "host_details" (JSON.obj []) with
  | JSON.obj hd =>
    match objGetD hd "data" (JSON.obj []) with
    | JSON.obj dt =>
      match objGetD dt "presentation" (JSON.obj []) with
      | JSON.obj pr =>
        match objGetD pr "userProfileContainer" (JSON.obj []) with
        | JSON.obj upc =>
          match objGetD upc "userProfile" (JSON.obj []) with
          | JSON.obj up =>
            match objGetD up "managedListings" (JSON.arr []) with
            | JSON.arr (ml0 :: _) =>
              match ml0 with
              | JSON.obj mlo => truthy (objGetD mlo "instantBookEnabled" JSON.null)
              | _ => false
            | _ => false
          | _ => false
        | _ => false
      | _ => false
    | _ => false
  | _ => false

/-- The three flat instant-book fallback fields (lines 583-585). -/
def ibFlat (dobj : List (String × JSON)) : Bool :=
  truthy (objGetD dobj "is_instant_bookable" JSON.null) ||
  truthy (objGetD dobj "instant_book" JSON.null) ||
  truthy (objGetD dobj "instant_bookable" JSON.null)

/-- Cancellation policy resolution (lines 588-596). -/
def cancellationPolicy (dobj : List (String × JSON)) : JSON :=
  let cp := objGetD dobj "cancellation_policy" JSON.null
  if truthy cp then
    match cp with
    | JSON.obj co =>
      pyOrElse (objGetD co "name" (JSON.str ""))
        (pyOrElse (objGetD co "policy_name" (JSON.str ""))
          (pyOrElse (objGetD co "category" (JSON.str ""))
            (objGetD co "type" (JSON.str ""))))
    | JSON.str s => JSON.str s
    | _ => JSON.str ""
  else JSON.str ""

/-- The nested `calendar[0].days[0].minNights / maxNights` pair (lines
599-611); any shape mismatch is swallowed by the `try`, leaving both
absent; a present non-`None` value is stringified. -/
def calendarPair (dobj : List (String × JSON)) : Option String × Option String :=
  match objGetD dobj "calendar" (JSON.arr []) with
  | JSON.arr (c0 :: _) =>
    match c0 with
    | JSON.obj c0o =>
      match objGetD c0o "days" (JSON.arr []) with
      | JSON.arr (d0 :: _) =>
        match d0 with
        | JSON.obj d0o =>
          (match objGetD d0o "minNights" JSON.null with
           | JSON.null => none
           | v => some (pyStr v),
           match objGetD d0o "maxNights" JSON.null with
           | JSON.null => none
           | v => some (pyStr v))
        | _ => (none, none)
      | _ => (none, none)
    | _ => (none, none)
  | _ => (none, none)

/-- The min/max-nights fallback chain (lines 614-624): the nested value
wins unless it is the empty string, then the two flat fields in order. -/
def minMaxResolve (nested : Option String) (dobj : List (String × JSON))
    (k1 k2 : String) : String :=
  let base := nested.getD ""
  if base.isEmpty then
    let v1 := objGetD dobj k1 JSON.null
    if truthy v1 then pyStr v1
    else
      let v2 := objGetD dobj k2 JSON.null
      if truthy v2 then pyStr v2 else ""
  else base

/-- Inner loop of the amenity flattening (lines 636-641): an item with
a truthy title and a truthy (default `True`) `available` contributes
its lower-cased title; a truthy non-string title raises
(`title.lower()` on a non-string, line 641, not inside any `try`). -/
def amenityItemsTitles : List JSON → Except Unit (List String)
  | [] => Except.ok []
  | item :: rest =>
    match item with
    | JSON.obj io =>
      let title := objGetD io "title" (JSON.str "")
      let available := objGetD io "available" (JSON.bool true)
      if truthy title && truthy available then
        match title with
        | JSON.str s =>
          match amenityItemsTitles rest with
          | Except.error _ => Except.error ()
          | Except.ok ts => Except.ok (pyLower s :: ts)
        | _ => Except.error ()
      else amenityItemsTitles rest
    | _ => amenityItemsTitles rest

/-- Outer loop of the amenity flattening (lines 631-641): categories
that are not dicts, or whose `values` is not a list, are skipped. -/
def amenityCatsTitles : List JSON → Except Unit (List String)
  | [] => Except.ok []
  | cat :: rest =>
    match cat with
    | JSON.obj co =>
      match objGetD co "values" (JSON.arr []) with
      | JSON.arr items =>
        match amenityItemsTitles items with
        | Except.error _ => Except.error ()
        | Except.ok ts =>
          match amenityCatsTitles rest with
          | Except.error _ => Except.error ()
          | Except.ok ts2 => Except.ok (ts ++ ts2)
      | _ => amenityCatsTitles rest
    | _ => amenityCatsTitles rest

/-- The flattened lower-cased titles of available amenities (627-644). -/
def amenityTitles (amen : JSON) : Except Unit (List String) :=
  match amen with
  | JSON.arr cats => amenityCatsTitles cats
  | _ => Except.ok []

/-- Availability test for one raw amenity item: a truthy title and a
truthy `available` (defaulting to `True` when the key is absent). -/
def itemAvailable (item : JSON) : Bool :=
  match item with
  | JSON.obj io =>
    truthy (objGetD io "title" (JSON.str "")) &&
    truthy (objGetD io "available" (JSON.bool true))
  | _ => false

/-- Count of available items across the category list. -/
def availableCountCats : List JSON → Nat
  | [] => 0
  | cat :: rest =>
    (match cat with
     | JSON.obj co =>
       match objGetD co "values" (JSON.arr []) with
       | JSON.arr items => (items.filter itemAvailable).length
       | _ => 0
     | _ => 0) + availableCountCats rest

/-- Independent count of the amenity entries judged available: items in
well-shaped categories with a truthy title and truthy `available`
(default `True`), regardless of any keyword flag. -/
def availableCount (amen : JSON) : Nat :=
  match amen with
  | JSON.arr cats => availableCountCats cats
  | _ => 0

/-- The initial result dict of `extract_details` (lines 327-467):
every field at its explicit default. -/
def defaultDetails : Dict :=
  [("room_type", JSON.str ""),
   ("bedrooms", JSON.str ""),
   ("beds", JSON.str ""),
   ("bathrooms", JSON.str ""),
   ("guests_capacity", JSON.str ""),
   ("rating_overall", JSON.str ""),
   ("rating_accuracy", JSON.str ""),
   ("rating_cleanliness", JSON.str ""),
   ("rating_checkin", JSON.str ""),
   ("rating_communication", JSON.str ""),
   ("rating_location", JSON.str ""),
   ("rating_value", JSON.str ""),
   ("reviews_count", JSON.str ""),
   ("host_id", JSON.str ""),
   ("host_name", JSON.str ""),
   ("is_superhost", JSON.bool false),
   ("is_guest_favorite", JSON.bool false),
   ("top_percent", JSON.str ""),
   ("badges", JSON.str ""),
   ("instant_book", JSON.bool false),
   ("cancellation_policy", JSON.str ""),
   ("min_nights", JSON.str ""),
   ("max_nights", JSON.str ""),
   ("amenities_count", JSON.num 0),
   ("has_wifi", JSON.bool false),
   ("has_kitchen", JSON.bool false),
   ("has_washer", JSON.bool false),
   ("has_dryer", JSON.bool false),
   ("has_air_conditioning", JSON.bool false),
   ("has_heating", JSON.bool false),
   ("has_tv", JSON.bool false),
   ("has_hair_dryer", JSON.bool false),
   ("has_iron", JSON.bool false),
   ("has_hangers", JSON.bool false),
   ("has_essentials", JSON.bool false),
   ("has_shampoo", JSON.bool false),
   ("has_hot_water", JSON.bool false),
   ("has_free_parking", JSON.bool false),
   ("has_paid_parking", JSON.bool false),
   ("has_street_parking", JSON.bool false),
   ("has_garage", JSON.bool false),
   ("has_ev_charger", JSON.bool false),
   ("has_pool", JSON.bool false),
   ("has_private_pool", JSON.bool false),
   ("has_shared_pool", JSON.bool false),
   ("has_hot_tub", JSON.bool false),
   ("has_gym", JSON.bool false),
   ("has_bbq_grill", JSON.bool false),
   ("has_outdoor_furniture", JSON.bool false),
   ("has_outdoor_dining", JSON.bool false),
   ("has_patio_balcony", JSON.bool false),
   ("has_garden", JSON.bool false),
   ("has_backyard", JSON.bool false),
   ("has_fire_pit", JSON.bool false),
   ("has_beach_access", JSON.bool false),
   ("has_lake_access", JSON.bool false),
   ("has_ski_in_out", JSON.bool false),
   ("has_city_view", JSON.bool false),
   ("has_mountain_view", JSON.bool false),
   ("has_ocean_view", JSON.bool false),
   ("has_sea_view", JSON.bool false),
   ("has_lake_view", JSON.bool false),
   ("has_garden_view", JSON.bool false),
   ("has_pool_view", JSON.bool false),
   ("has_coffee_maker", JSON.bool false),
   ("has_espresso_machine", JSON.bool false),
   ("has_oven", JSON.bool false),
   ("has_stove", JSON.bool false),
   ("has_microwave", JSON.bool false),
   ("has_refrigerator", JSON.bool false),
   ("has_freezer", JSON.bool false),
   ("has_dishwasher", JSON.bool false),
   ("has_dishes_silverware", JSON.bool false),
   ("has_cooking_basics", JSON.bool false),
   ("has_bathtub", JSON.bool false),
   ("has_shower", JSON.bool false),
   ("has_bidet", JSON.bool false),
   ("has_body_soap", JSON.bool false),
   ("has_conditioner", JSON.bool false),
   ("has_cleaning_products", JSON.bool false),
   ("has_bed_linens", JSON.bool false),
   ("has_extra_pillows", JSON.bool false),
   ("has_blackout_shades", JSON.bool false),
   ("has_safe", JSON.bool false),
   ("has_fireplace", JSON.bool false),
   ("has_ceiling_fan", JSON.bool false),
   ("has_workspace", JSON.bool false),
   ("has_desk", JSON.bool false),
   ("has_crib", JSON.bool false),
   ("has_high_chair", JSON.bool false),
   ("has_baby_safety_gates", JSON.bool false),
   ("has_children_books_toys", JSON.bool false),
   ("has_baby_bath", JSON.bool false),
   ("has_smoke_alarm", JSON.bool false),
   ("has_carbon_monoxide_alarm", JSON.bool false),
   ("has_fire_extinguisher", JSON.bool false),
   ("has_first_aid_kit", JSON.bool false),
   ("has_security_cameras", JSON.bool false),
   ("has_lock_on_door", JSON.bool false),
   ("has_self_checkin", JSON.bool false),
   ("has_lockbox", JSON.bool false),
   ("has_smart_lock", JSON.bool false),
   ("has_doorman", JSON.bool false),
   ("has_pets_allowed", JSON.bool false),
   ("has_step_free_entrance", JSON.bool false),
   ("has_wide_entrance", JSON.bool false),
   ("has_accessible_parking", JSON.bool false),
   ("has_grab_bars", JSON.bool false),
   ("has_elevator", JSON.bool false),
   ("has_netflix", JSON.bool false),
   ("has_streaming_service", JSON.bool false),
   ("has_cable_tv", JSON.bool false),
   ("has_game_console", JSON.bool false),
   ("has_books", JSON.bool false),
   ("has_board_games", JSON.bool false),
   ("has_breakfast", JSON.bool false),
   ("has_long_term_stays", JSON.bool false),
   ("has_luggage_dropoff", JSON.bool false),
   ("has_private_entrance", JSON.bool false),
   ("has_sauna", JSON.bool false),
   ("has_piano", JSON.bool false)]

/-- Stringify-when-truthy pattern (`if v: result[k] = str(v)` over a
default of `""`). -/
def strWhenTruthy (v : JSON) : JSON :=
  if truthy v then JSON.str (pyStr v) else JSON.str ""

/-- The final dict of `extract_details` for a truthy dict payload whose
amenity flattening produced `titles`: same keys and order as the
initial literal, with each field's computed value (the Python in-place
updates never reorder keys and the amenity section is the only one that
can raise). -/
def buildDetails (dobj : List (String × JSON)) (titles : List String) : Dict :=
  let triple := subDescTriple dobj
  let rEntry := fun (key : String) =>
    JSON.str ((ratingObj dobj).bind (fun ro => ratingField ro key) |>.getD "")
  let hEntry := fun (key : String) =>
    JSON.str (match hostObj dobj with
      | some ho =>
        let v := objGetD ho key JSON.null
        if truthy v then pyStr v else ""
      | none => "")
  let superhost := truthy (objGetD dobj "is_super_host" JSON.null)
  let guestFav := truthy (objGetD dobj "is_guest_favorite" JSON.null)
  let tp := topPercent dobj
  let cal := calendarPair dobj
  let s := joinSep " " titles
  [("room_type", strWhenTruthy (objGetD dobj "room_type" JSON.null)),
   ("bedrooms", JSON.str triple.1),
   ("beds", JSON.str triple.2.1),
   ("bathrooms", JSON.str triple.2.2),
   ("guests_capacity", strWhenTruthy (objGetD dobj "person_capacity" JSON.null)),
   ("rating_overall", rEntry "guest_satisfaction"),
   ("rating_accuracy", rEntry "accuracy"),
   ("rating_cleanliness", rEntry "cleanliness"),
   ("rating_checkin", rEntry "checking"),
   ("rating_communication", rEntry "communication"),
   ("rating_location", rEntry "location"),
   ("rating_value", rEntry "value"),
   ("reviews_count", rEntry "review_count"),
   ("host_id", hEntry "id"),
   ("host_name", hEntry "name"),
   ("is_superhost", JSON.bool superhost),
   ("is_guest_favorite", JSON.bool guestFav),
   ("top_percent", JSON.str tp),
   ("badges", JSON.str (badgesString superhost guestFav tp)),
   ("instant_book", JSON.bool (ibNested dobj || ibFlat dobj)),
   ("cancellation_policy", cancellationPolicy dobj),
   ("min_nights", JSON.str (minMaxResolve cal.1 dobj "min_nights" "minimum_nights")),
   ("max_nights", JSON.str (minMaxResolve cal.2 dobj "max_nights" "maximum_nights")),
   ("amenities_count", JSON.num titles.length),
   ("has_wifi", JSON.bool (anyKey s ["wifi", "wi-fi", "internet", "wireless"])),
   ("has_kitchen", JSON.bool (strHas s "kitchen")),
   ("has_washer", JSON.bool (anyKey s ["washer", "washing machine", "laveuse", "lave-linge"])),
   ("has_dryer", JSON.bool (anyKey s ["dryer", "sèche-linge", "séchoir"])),
   ("has_air_conditioning", JSON.bool (anyKey s ["air conditioning", "air conditioner", "ac", "climatisation", "a/c"])),
   ("has_heating", JSON.bool (anyKey s ["heating", "heater", "chauffage", "central heating"])),
   ("has_tv", JSON.bool (anyKey s [" tv", "television", "télévision", "téléviseur", "hdtv"])),
   ("has_hair_dryer", JSON.bool (anyKey s ["hair dryer", "hairdryer", "sèche-cheveux"])),
   ("has_iron", JSON.bool (anyKey s ["iron", "fer à repasser"])),
   ("has_hangers", JSON.bool (strHas s "hanger")),
   ("has_essentials", JSON.bool (strHas s "essential")),
   ("has_shampoo", JSON.bool (strHas s "shampoo")),
   ("has_hot_water", JSON.bool (strHas s "hot water")),
   ("has_free_parking", JSON.bool (anyKey s ["free parking", "parking gratuit", "free on-site parking", "free garage"])),
   ("has_paid_parking", JSON.bool (anyKey s ["paid parking", "parking payant", "parking fee"])),
   ("has_street_parking", JSON.bool (strHas s "street parking")),
   ("has_garage", JSON.bool (strHas s "garage")),
   ("has_ev_charger", JSON.bool (anyKey s ["ev charger", "electric vehicle", "charging station", "borne de recharge"])),
   ("has_pool", JSON.bool (strHas s "pool")),
   ("has_private_pool", JSON.bool (anyKey s ["private pool", "piscine privée"])),
   ("has_shared_pool", JSON.bool (anyKey s ["shared pool", "piscine partagée", "communal pool"])),
   ("has_hot_tub", JSON.bool (anyKey s ["hot tub", "jacuzzi", "spa", "whirlpool", "bain à remous"])),
   ("has_gym", JSON.bool (anyKey s ["gym", "fitness", "exercise", "workout", "sport", "fitness center", "salle de sport"])),
   ("has_bbq_grill", JSON.bool (anyKey s ["bbq", "grill", "barbecue", "barbeque"])),
   ("has_outdoor_furniture", JSON.bool (anyKey s ["outdoor furniture", "patio furniture", "garden furniture"])),
   ("has_outdoor_dining", JSON.bool (anyKey s ["outdoor dining", "al fresco", "dîner extérieur"])),
   ("has_patio_balcony", JSON.bool (anyKey s ["patio", "balcony", "balcon", "terrace", "terrasse", "deck"])),
   ("has_garden", JSON.bool (anyKey s ["garden", "jardin", "yard"])),
   ("has_backyard", JSON.bool (anyKey s ["backyard", "back yard", "arrière-cour"])),
   ("has_fire_pit", JSON.bool (anyKey s ["fire pit", "firepit", "foyer extérieur"])),
   ("has_beach_access", JSON.bool (anyKey s ["beach access", "beachfront", "plage"])),
   ("has_lake_access", JSON.bool (anyKey s ["lake access", "lakefront", "waterfront"])),
   ("has_ski_in_out", JSON.bool (anyKey s ["ski-in", "ski-out", "ski in", "ski out"])),
   ("has_city_view", JSON.bool (anyKey s ["city view", "city skyline", "vue sur la ville", "urban view"])),
   ("has_mountain_view", JSON.bool (anyKey s ["mountain view", "vue montagne"])),
   ("has_ocean_view", JSON.bool (anyKey s ["ocean view", "vue océan", "sea view"])),
   ("has_sea_view", JSON.bool (anyKey s ["sea view", "vue mer"])),
   ("has_lake_view", JSON.bool (anyKey s ["lake view", "vue lac"])),
   ("has_garden_view", JSON.bool (anyKey s ["garden view", "vue jardin"])),
   ("has_pool_view", JSON.bool (anyKey s ["pool view", "vue piscine"])),
   ("has_coffee_maker", JSON.bool (anyKey s ["coffee maker", "coffee machine", "cafetière", "nespresso", "keurig"])),
   ("has_espresso_machine", JSON.bool (anyKey s ["espresso", "expresso"])),
   ("has_oven", JSON.bool (anyKey s [" oven", "four"])),
   ("has_stove", JSON.bool (anyKey s ["stove", "cooktop", "plaque", "cuisinière", "hob"])),
   ("has_microwave", JSON.bool (anyKey s ["microwave", "micro-onde"])),
   ("has_refrigerator", JSON.bool (anyKey s ["refrigerator", "fridge", "réfrigérateur", "frigo"])),
   ("has_freezer", JSON.bool (strHas s "freezer" || strHas s "congélateur")),
   ("has_dishwasher", JSON.bool (anyKey s ["dishwasher", "lave-vaisselle"])),
   ("has_dishes_silverware", JSON.bool (anyKey s ["dishes", "silverware", "utensils", "cutlery", "vaisselle", "couverts"])),
   ("has_cooking_basics", JSON.bool (anyKey s ["cooking basics", "pots", "pans", "oil", "salt"])),
   ("has_bathtub", JSON.bool (anyKey s ["bathtub", "bath tub", "tub", "baignoire"])),
   ("has_shower", JSON.bool (strHas s "shower" || strHas s "douche")),
   ("has_bidet", JSON.bool (strHas s "bidet")),
   ("has_body_soap", JSON.bool (anyKey s ["body soap", "soap", "savon"])),
   ("has_conditioner", JSON.bool (strHas s "conditioner")),
   ("has_cleaning_products", JSON.bool (anyKey s ["cleaning products", "cleaning supplies"])),
   ("has_bed_linens", JSON.bool (anyKey s ["bed linen", "linens", "sheets", "draps"])),
   ("has_extra_pillows", JSON.bool (anyKey s ["extra pillows", "pillow", "oreiller"])),
   ("has_blackout_shades", JSON.bool (anyKey s ["blackout", "room-darkening", "rideaux occultants"])),
   ("has_safe", JSON.bool (anyKey s [" safe", "coffre-fort", "security box"] && !strHas s "safety")),
   ("has_fireplace", JSON.bool (anyKey s ["fireplace", "cheminée", "indoor fireplace"])),
   ("has_ceiling_fan", JSON.bool (anyKey s ["ceiling fan", "ventilateur"])),
   ("has_workspace", JSON.bool (anyKey s ["workspace", "work space", "dedicated workspace", "espace de travail", "laptop-friendly"])),
   ("has_desk", JSON.bool (anyKey s ["desk", "bureau", "office"])),
   ("has_crib", JSON.bool (anyKey s ["crib", "cot", "berceau", "lit bébé", "pack \x27n play"])),
   ("has_high_chair", JSON.bool (anyKey s ["high chair", "highchair", "chaise haute"])),
   ("has_baby_safety_gates", JSON.bool (anyKey s ["baby gate", "safety gate", "barrière"])),
   ("has_children_books_toys", JSON.bool (anyKey s ["children\x27s books", "toys", "jouets", "kids"])),
   ("has_baby_bath", JSON.bool (anyKey s ["baby bath", "bain bébé"])),
   ("has_smoke_alarm", JSON.bool (anyKey s ["smoke alarm", "smoke detector", "détecteur de fumée"])),
   ("has_carbon_monoxide_alarm", JSON.bool (anyKey s ["carbon monoxide", "co alarm", "co detector", "monoxyde de carbone"])),
   ("has_fire_extinguisher", JSON.bool (anyKey s ["fire extinguisher", "extincteur"])),
   ("has_first_aid_kit", JSON.bool (anyKey s ["first aid", "premiers secours", "first-aid"])),
   ("has_security_cameras", JSON.bool (anyKey s ["security camera", "camera", "surveillance", "caméra"])),
   ("has_lock_on_door", JSON.bool (anyKey s ["lock on", "door lock", "verrou", "bedroom lock"])),
   ("has_self_checkin", JSON.bool (anyKey s ["self check-in", "self-check-in", "self checkin", "arrivée autonome"])),
   ("has_lockbox", JSON.bool (anyKey s ["lockbox", "lock box", "key box", "boîte à clés"])),
   ("has_smart_lock", JSON.bool (anyKey s ["smart lock", "keypad", "code", "serrure connectée", "digital lock"])),
   ("has_doorman", JSON.bool (anyKey s ["doorman", "concierge", "portier", "building staff"])),
   ("has_pets_allowed", JSON.bool (anyKey s ["pets allowed", "pet-friendly", "pet friendly", "animaux acceptés", "dog", "cat"])),
   ("has_step_free_entrance", JSON.bool (anyKey s ["step-free", "step free", "no stairs", "sans escalier", "wheelchair"])),
   ("has_wide_entrance", JSON.bool (anyKey s ["wide entrance", "wide doorway", "entrée large"])),
   ("has_accessible_parking", JSON.bool (anyKey s ["accessible parking", "handicap parking", "disabled parking"])),
   ("has_grab_bars", JSON.bool (anyKey s ["grab bar", "grab bars", "barres d\x27appui"])),
   ("has_elevator", JSON.bool (anyKey s ["elevator", "lift", "ascenseur"])),
   ("has_netflix", JSON.bool (strHas s "netflix")),
   ("has_streaming_service", JSON.bool (anyKey s ["streaming", "netflix", "amazon prime", "disney+", "hulu", "hbo", "apple tv"])),
   ("has_cable_tv", JSON.bool (anyKey s ["cable", "câble", "satellite"])),
   ("has_game_console", JSON.bool (anyKey s ["game console", "playstation", "xbox", "nintendo", "ps4", "ps5", "gaming"])),
   ("has_books", JSON.bool (anyKey s ["books", "library", "livres", "bibliothèque", "reading"])),
   ("has_board_games", JSON.bool (anyKey s ["board game", "games", "jeux de société", "puzzles"])),
   ("has_breakfast", JSON.bool (anyKey s ["breakfast", "petit-déjeuner", "petit déjeuner"])),
   ("has_long_term_stays", JSON.bool (anyKey s ["long term", "monthly", "long-term", "28+ days"])),
   ("has_luggage_dropoff", JSON.bool (anyKey s ["luggage dropoff", "luggage storage", "baggage"])),
   ("has_private_entrance", JSON.bool (anyKey s ["private entrance", "entrée privée", "separate entrance"])),
   ("has_sauna", JSON.bool (strHas s "sauna")),
   ("has_piano", JSON.bool (strHas s "piano"))]

/-- `extract_details(details)` (lines 325-775): falsy payloads return
the default dict; a truthy non-dict payload raises on the first
attribute access; for a truthy dict the only raising statement is
`title.lower()` inside the amenity flattening. -/
def extract_details : Option JSON → Except Unit Dict
  | none => Except.ok defaultDetails
  | some d =>
    if truthy d then
      match d with
      | JSON.obj dobj =>
        match amenityTitles (objGetD dobj "amenities" (JSON.arr [])) with
        | Except.error _ => Except.error ()
        | Except.ok titles => Except.ok (buildDetails dobj titles)
      | _ => Except.error ()
    else Except.ok defaultDetails

/-! ## ScenarioRunner (`run_scenario`, lines 782-841)

The date window is computed from `datetime.now()`; the embedding takes
the two formatted date strings as inputs.  The detail fetch
(`get_listing_details`, lines 311-322, which swallows every exception
into `None`) is the `get_details` oracle. -/

/-- Python `listing[key]` for the record dicts. -/
def dictGet (d : Dict) (key : String) : Option JSON := lookupField d key

/-- Python `d[k] = v`: replace in place when the key exists (insertion
order kept), else append. -/
def dictSet (d : Dict) (key : String) (v : JSON) : Dict :=
  if d.any (fun p => p.1 == key) then
    d.map (fun p => if p.1 == key then (key, v) else p)
  else d ++ [(key, v)]

/-- Python `d.update(upd)`: set every pair of `upd` in order. -/
def dictUpdate (d : Dict) (upd : Dict) : Dict :=
  upd.foldl (fun acc p => dictSet acc p.1 p.2) d

/-- `listing["room_id"]` (always a string on search records). -/
def roomIdOf (l : Dict) : String :=
  match lookupField l "room_id" with
  | some (JSON.str s) => s
  | _ => ""

/-- One iteration of the detail loop (lines 816-828): fetch, and merge
the extraction into the record only when the fetched payload is truthy. -/
def enrichListing (get_details : String → Option JSON) (l : Dict) :
    Except Unit Dict :=
  match get_details (roomIdOf l) with
  | some d =>
    if truthy d then
      match extract_details (some d) with
      | Except.error _ => Except.error ()
      | Except.ok ex => Except.ok (dictUpdate l ex)
    else Except.ok l
  | none => Except.ok l

/-- The detail loop over all listings, in order. -/
def enrichAll (get_details : String → Option JSON) :
    List Dict → Except Unit (List Dict)
  | [] => Except.ok []
  | l :: rest =>
    match enrichListing get_details l with
    | Except.error _ => Except.error ()
    | Except.ok l2 =>
      match enrichAll get_details rest with
      | Except.error _ => Except.error ()
      | Except.ok rest2 => Except.ok (l2 :: rest2)

/-- The metadata stamping of lines 833-839. -/
def stampMeta (l : Dict) (run_id check_in check_out : String)
    (nights days_from_now guests : Nat) : Dict :=
  dictSet (dictSet (dictSet (dictSet (dictSet (dictSet l
    "run_id" (JSON.str run_id))
    "checkin_date" (JSON.str check_in))
    "checkout_date" (JSON.str check_out))
    "nights" (JSON.num nights))
    "days_from_now" (JSON.num days_from_now))
    "guests" (JSON.num guests)

/-- `run_scenario(run_id, days_from_now, nights, guests)`: search phase,
early return on an empty search, detail phase, metadata stamping;
an uncaught exception in the detail phase (a raising `extract_details`)
is the `error` outcome. -/
def run_scenario (pages : Nat → PageResponse) (get_details : String → Option JSON)
    (run_id : String) (days_from_now nights guests : Nat)
    (check_in check_out : String) : Except Unit (List Dict) :=
  let listings := search_listings pages check_in check_out guests
  if listings.isEmpty then Except.ok []
  else
    match enrichAll get_details listings with
    | Except.error _ => Except.error ()
    | Except.ok enriched =>
      Except.ok (enriched.map (fun l =>
        stampMeta l run_id check_in check_out nights days_from_now guests))

/-! ## Lemmas: base64 decode inverts base64 encode -/

/-- Decoding table inverts the alphabet table on sextets. -/
theorem b64Val_b64Char : ∀ n, n < 64 → b64Val (b64Char n) = some n := by decide

/-- Alphabet characters are never the padding character. -/
theorem b64Char_ne_pad : ∀ n, n < 64 → (b64Char n == '=') = false := by decide

/-- Alphabet characters are ASCII. -/
theorem b64Char_ascii : ∀ n, n < 64 → (b64Char n).toNat < 128 := by decide

/-- Every character of an encoded byte list is ASCII. -/
theorem b64Encode_ascii : ∀ bs : List Nat, (∀ b ∈ bs, b < 256) →
    ∀ c ∈ b64EncodeList bs, c.toNat < 128 := by
  intro bs
  induction bs using b64EncodeList.induct with
  | case1 => intro _ c hc; simp [b64EncodeList] at hc
  | case2 b0 =>
    intro h c hc
    have hb0 : b0 < 256 := h b0 (by simp)
    simp only [b64EncodeList, List.mem_cons, List.not_mem_nil, or_false] at hc
    rcases hc with rfl | rfl | rfl | rfl
    · exact b64Char_ascii _ (by omega)
    · exact b64Char_ascii _ (by omega)
    · decide
    · decide
  | case3 b0 b1 =>
    intro h c hc
    have hb0 : b0 < 256 := h b0 (by simp)
    have hb1 : b1 < 256 := h b1 (by simp)
    simp only [b64EncodeList, List.mem_cons, List.not_mem_nil, or_false] at hc
    rcases hc with rfl | rfl | rfl | rfl
    · exact b64Char_ascii _ (by omega)
    · exact b64Char_ascii _ (by omega)
    · exact b64Char_ascii _ (by omega)
    · decide
  | case4 b0 b1 b2 rest ih =>
    intro h c hc
    have hb0 : b0 < 256 := h b0 (by simp)
    have hb1 : b1 < 256 := h b1 (by simp)
    have hb2 : b2 < 256 := h b2 (by simp)
    simp only [b64EncodeList, List.mem_cons] at hc
    rcases hc with rfl | rfl | rfl | rfl | hc
    · exact b64Char_ascii _ (by omega)
    · exact b64Char_ascii _ (by omega)
    · exact b64Char_ascii _ (by omega)
    · exact b64Char_ascii _ (by omega)
    · exact ih (fun b hb => h b (by simp [hb])) c hc

/-- The non-strict decode loop inverts the canonical encoding: fed the
encoding of a byte list in quad state 0, it appends exactly those bytes
to its accumulator (the final pad of a 1- or 2-byte tail completes the
quad and ends decoding; a 3-byte group ends back in quad state 0). -/
theorem b64DecodeLoop_encode : ∀ bs : List Nat, (∀ b ∈ bs, b < 256) →
    ∀ acc : List Nat,
      b64DecodeLoop (b64EncodeList bs) 0 0 0 acc = some (acc ++ bs) := by
  intro bs
  induction bs using b64EncodeList.induct with
  | case1 => intro _ acc; simp [b64EncodeList, b64DecodeLoop]
  | case2 b0 =>
    intro h acc
    have hb0 : b0 < 256 := h b0 (by simp)
    have p0 := b64Char_ne_pad (b0 / 4) (by omega)
    have p1 := b64Char_ne_pad (b0 % 4 * 16) (by omega)
    have v0 := b64Val_b64Char (b0 / 4) (by omega)
    have v1 := b64Val_b64Char (b0 % 4 * 16) (by omega)
    simp [b64EncodeList, b64DecodeLoop, p0, p1, v0, v1]
    omega
  | case3 b0 b1 =>
    intro h acc
    have hb0 : b0 < 256 := h b0 (by simp)
    have hb1 : b1 < 256 := h b1 (by simp)
    have p0 := b64Char_ne_pad (b0 / 4) (by omega)
    have p1 := b64Char_ne_pad (b0 % 4 * 16 + b1 / 16) (by omega)
    have p2 := b64Char_ne_pad (b1 % 16 * 4) (by omega)
    have v0 := b64Val_b64Char (b0 / 4) (by omega)
    have v1 := b64Val_b64Char (b0 % 4 * 16 + b1 / 16) (by omega)
    have v2 := b64Val_b64Char (b1 % 16 * 4) (by omega)
    simp [b64EncodeList, b64DecodeLoop, p0, p1, p2, v0, v1, v2]
    constructor <;> omega
  | case4 b0 b1 b2 rest ih =>
    intro h acc
    have hb0 : b0 < 256 := h b0 (by simp)
    have hb1 : b1 < 256 := h b1 (by simp)
    have hb2 : b2 < 256 := h b2 (by simp)
    have hrest := ih (fun b hb => h b (by simp [hb]))
    have p0 := b64Char_ne_pad (b0 / 4) (by omega)
    have p1 := b64Char_ne_pad (b0 % 4 * 16 + b1 / 16) (by omega)
    have p2 := b64Char_ne_pad (b1 % 16 * 4 + b2 / 64) (by omega)
    have p3 := b64Char_ne_pad (b2 % 64) (by omega)
    have v0 := b64Val_b64Char (b0 / 4) (by omega)
    have v1 := b64Val_b64Char (b0 % 4 * 16 + b1 / 16) (by omega)
    have v2 := b64Val_b64Char (b1 % 16 * 4 + b2 / 64) (by omega)
    have v3 := b64Val_b64Char (b2 % 64) (by omega)
    have e1 : b0 / 4 * 4 + (b0 % 4 * 16 + b1 / 16) / 16 = b0 := by omega
    have e2 : (b0 % 4 * 16 + b1 / 16) % 16 * 16 + (b1 % 16 * 4 + b2 / 64) / 4 = b1 := by
      omega
    have e3 : (b1 % 16 * 4 + b2 / 64) % 4 * 64 + b2 % 64 = b2 := by omega
    simp [b64EncodeList, b64DecodeLoop, p0, p1, p2, p3, v0, v1, v2, v3, e1, e2, e3,
      hrest]

/-- Base64 decoding inverts base64 encoding on byte lists. -/
theorem b64_roundtrip (bs : List Nat) (h : ∀ b ∈ bs, b < 256) :
    b64DecodeString (b64EncodeString bs) = some bs := by
  unfold b64DecodeString b64EncodeString
  rw [show (String.mk (b64EncodeList bs)).data = b64EncodeList bs from rfl]
  rw [if_pos]
  · simpa using b64DecodeLoop_encode bs h []
  · rw [List.all_eq_true]
    intro c hc
    simpa using b64Encode_ascii bs h c hc

/-- Fidelity of the non-strict decoder on leniently-accepted inputs:
data after a quad-completing pad is ignored (`bnM6aWQ=XXXX` decodes to
the bytes of `ns:id`, so the program retains listing id `id` — and so
does the model), misplaced or extra padding is skipped, and a single
leftover data character is an error. -/
theorem b64DecodeString_nonstrict :
    b64DecodeString "bnM6aWQ=XXXX" = some [110, 115, 58, 105, 100] ∧
    b64DecodeString "TDox=" = some [76, 58, 49] ∧
    b64DecodeString "=TDox" = some [76, 58, 49] ∧
    b64DecodeString "TDox====" = some [76, 58, 49] ∧
    b64DecodeString "a" = none ∧
    decodeRoomId (JSON.str "bnM6aWQ=XXXX") = some "id" :=
  ⟨rfl, rfl, rfl, rfl, rfl, rfl⟩

/-! ## Lemmas: UTF-8 decoding inverts UTF-8 encoding -/

/-- Recover a `Char` from its scalar value. -/
theorem charOfNat_toNat (c : Char) : Char.ofNat c.toNat = c := by
  have hv : Nat.isValidChar c.toNat := c.valid
  apply Char.ext
  apply UInt32.toNat.inj
  show (Char.ofNat c.toNat).val.toNat = c.val.toNat
  unfold Char.ofNat
  rw [dif_pos hv]
  rfl

/-- An encoded scalar occupies at least one byte. -/
theorem utf8EncodeNat_length_pos (v : Nat) : 0 < (utf8EncodeNat v).length := by
  unfold utf8EncodeNat
  split_ifs <;> simp

/-- Decoding one scalar inverts encoding for every valid scalar value,
leaving the remaining bytes untouched. -/
theorem utf8DecodeOne_encode (v : Nat)
    (hv : v < 55296 ∨ (57343 < v ∧ v < 1114112)) (rest : List Nat) :
    utf8DecodeOne (utf8EncodeNat v ++ rest) = some (v, rest) := by
  unfold utf8EncodeNat
  by_cases h1 : v < 128
  · rw [if_pos h1]
    simp only [List.cons_append, List.nil_append, utf8DecodeOne]
    rw [if_pos h1]
  · rw [if_neg h1]
    by_cases h2 : v < 2048
    · rw [if_pos h2]
      simp only [List.cons_append, List.nil_append, utf8DecodeOne]
      rw [if_neg (by omega), if_neg (by omega), if_pos (by omega),
        if_pos (by omega : 128 ≤ 128 + v % 64 ∧ 128 + v % 64 < 192)]
      simp only [Option.some.injEq, Prod.mk.injEq, and_true]
      omega
    · rw [if_neg h2]
      by_cases h3 : v < 65536
      · rw [if_pos h3]
        simp only [List.cons_append, List.nil_append, utf8DecodeOne]
        rw [if_neg (by omega), if_neg (by omega), if_neg (by omega),
          if_pos (by omega)]
        rw [if_pos]
        · simp only [Option.some.injEq, Prod.mk.injEq, and_true]
          omega
        · refine ⟨?_, ?_, by omega, by omega⟩
          · split_ifs with h224
            · omega
            · omega
          · split_ifs with h237
            · omega
            · omega
      · rw [if_neg h3]
        simp only [List.cons_append, List.nil_append, utf8DecodeOne]
        rw [if_neg (by omega), if_neg (by omega), if_neg (by omega),
          if_neg (by omega), if_pos (by omega)]
        rw [if_pos]
        · simp only [Option.some.injEq, Prod.mk.injEq, and_true]
          omega
        · refine ⟨?_, ?_, by omega, by omega, by omega, by omega⟩
          · split_ifs with h240
            · omega
            · omega
          · split_ifs with h244
            · omega
            · omega

/-- Fuel-driven decoding inverts encoding whenever the fuel covers the
byte length. -/
theorem utf8DecodeAux_encode : ∀ (cs : List Char) (fuel : Nat),
    (utf8EncodeList cs).length ≤ fuel →
    utf8DecodeAux fuel (utf8EncodeList cs) = some (cs.map Char.toNat) := by
  intro cs
  induction cs with
  | nil =>
    intro fuel _
    cases fuel <;> rfl
  | cons c cs ih =>
    intro fuel hlen
    have hv : c.toNat < 55296 ∨ (57343 < c.toNat ∧ c.toNat < 1114112) := c.valid
    have hpos := utf8EncodeNat_length_pos c.toNat
    have hlist : utf8EncodeList (c :: cs) = utf8EncodeNat c.toNat ++ utf8EncodeList cs := rfl
    rw [hlist] at hlen ⊢
    match hfuel : fuel with
    | 0 =>
      exfalso
      rw [List.length_append] at hlen
      omega
    | f + 1 =>
      obtain ⟨b, t, henc⟩ : ∃ b t, utf8EncodeNat c.toNat = b :: t := by
        cases henc : utf8EncodeNat c.toNat with
        | nil => rw [henc] at hpos; simp at hpos
        | cons b t => exact ⟨b, t, rfl⟩
      rw [henc, List.cons_append]
      simp only [utf8DecodeAux]
      rw [show b :: (t ++ utf8EncodeList cs) = (b :: t) ++ utf8EncodeList cs from rfl,
        ← henc, utf8DecodeOne_encode c.toNat hv (utf8EncodeList cs)]
      have hih := ih f (by
        rw [henc] at hlen
        simp only [List.length_cons, List.length_append] at hlen
        omega)
      show (match utf8DecodeAux f (utf8EncodeList cs) with
        | none => none
        | some vs => some (c.toNat :: vs)) = some (List.map Char.toNat (c :: cs))
      rw [hih]
      rfl

/-- UTF-8 decoding inverts UTF-8 encoding on strings. -/
theorem utf8_roundtrip (s : String) : utf8DecodeString (utf8EncodeString s) = some s := by
  unfold utf8DecodeString utf8EncodeString
  rw [utf8DecodeAux_encode s.data _ le_rfl]
  simp only [Option.map_some']
  congr 1
  rw [List.map_map]
  have hcomp : (Char.ofNat ∘ Char.toNat) = id := funext fun c => charOfNat_toNat c
  rw [hcomp, List.map_id]

/-! ## Lemmas: splitting and the identifier codec -/

/-- Splitting a separator-free list yields one field. -/
theorem splitAccum_no_sep (sep : Char) : ∀ (l cur : List Char),
    (∀ c ∈ l, (c == sep) = false) →
    splitAccum sep l cur = [cur.reverse ++ l] := by
  intro l
  induction l with
  | nil => intro cur _; simp [splitAccum]
  | cons c cs ih =>
    intro cur h
    have hc : (c == sep) = false := h c (by simp)
    simp only [splitAccum, hc, Bool.false_eq_true, if_false]
    rw [ih (c :: cur) (fun x hx => h x (by simp [hx]))]
    simp

/-- Splitting at the first separator occurrence. -/
theorem splitAccum_append_sep (sep : Char) (l2 : List Char) : ∀ (l1 cur : List Char),
    (∀ c ∈ l1, (c == sep) = false) →
    splitAccum sep (l1 ++ sep :: l2) cur =
      (cur.reverse ++ l1) :: splitAccum sep l2 [] := by
  intro l1
  induction l1 with
  | nil =>
    intro cur _
    simp [splitAccum]
  | cons c cs ih =>
    intro cur h
    have hc : (c == sep) = false := h c (by simp)
    simp only [List.cons_append, splitAccum, hc, Bool.false_eq_true, if_false,
      List.append_eq]
    rw [ih (c :: cur) (fun x hx => h x (by simp [hx]))]
    simp

/-- Every encoded scalar byte is below 256. -/
theorem utf8EncodeNat_lt (v : Nat) (hv : v < 1114112) :
    ∀ b ∈ utf8EncodeNat v, b < 256 := by
  unfold utf8EncodeNat
  split_ifs <;> simp <;> omega

/-- Every byte of an encoded string is below 256. -/
theorem utf8EncodeList_lt : ∀ cs : List Char, ∀ b ∈ utf8EncodeList cs, b < 256 := by
  intro cs
  induction cs with
  | nil => intro b hb; simp [utf8EncodeList] at hb
  | cons c cs ih =>
    intro b hb
    have hv : c.toNat < 55296 ∨ (57343 < c.toNat ∧ c.toNat < 1114112) := c.valid
    simp only [utf8EncodeList, List.mem_append] at hb
    rcases hb with hb | hb
    · exact utf8EncodeNat_lt c.toNat (by omega) b hb
    · exact ih b hb

/-- The codec round-trip: decoding the base64 encoding of
`<namespace>:<listing_id>` recovers the listing id whenever neither
component contains a colon. -/
theorem decodeRoomId_encodeId (ns id : String)
    (hns : ∀ c ∈ ns.data, (c == ':') = false)
    (hid : ∀ c ∈ id.data, (c == ':') = false) :
    decodeRoomId (JSON.str (encodeId ns id)) = some id := by
  have hb : ∀ s : String,
      b64DecodeString (b64EncodeString (utf8EncodeString s)) = some (utf8EncodeString s) :=
    fun s => b64_roundtrip _ (utf8EncodeList_lt _)
  simp only [decodeRoomId, encodeId, hb, utf8_roundtrip]
  have hdata : (ns ++ ":" ++ id).data = ns.data ++ ':' :: id.data := by
    rw [String.data_append, String.data_append,
      show (":" : String).data = [':'] from rfl]
    simp
  rw [hdata]
  rw [if_pos]
  · unfold pySplit
    rw [hdata, splitAccum_append_sep ':' id.data ns.data [] hns,
      splitAccum_no_sep ':' id.data [] hid]
    simp only [List.reverse_nil, List.nil_append, List.map_cons, List.map_nil]
    rfl
  · simp

/-- A split always yields at least one field. -/
theorem splitAccum_pos (sep : Char) : ∀ (l cur : List Char),
    1 ≤ (splitAccum sep l cur).length := by
  intro l
  induction l with
  | nil => intro cur; simp [splitAccum]
  | cons c cs ih =>
    intro cur
    by_cases hc : (c == sep) = true
    · simp [splitAccum, hc]
    · simp only [splitAccum, hc, if_false]
      exact ih (c :: cur)

/-- A split of a list containing the separator yields at least two
fields. -/
theorem splitAccum_two (sep : Char) : ∀ (l cur : List Char),
    l.contains sep = true → 2 ≤ (splitAccum sep l cur).length := by
  intro l
  induction l with
  | nil => intro cur h; simp at h
  | cons c cs ih =>
    intro cur h
    by_cases hc : (c == sep) = true
    · simp only [splitAccum, hc, if_true, List.length_cons]
      have := splitAccum_pos sep cs []
      omega
    · have hc' : (c == sep) = false := by simpa using hc
      have hcs : (sep == c) = false := by
        rw [beq_eq_false_iff_ne] at hc' ⊢
        exact fun e => hc' e.symm
      simp only [splitAccum, hc', Bool.false_eq_true, if_false]
      refine ih (c :: cur) ?_
      simp only [List.contains_cons, hcs, Bool.false_or] at h
      exact h

/-- The head field of a split. -/
theorem splitAccum_head (sep : Char) : ∀ (l cur : List Char),
    (splitAccum sep l cur).getD 0 [] =
      cur.reverse ++ l.takeWhile (fun c => !(c == sep)) := by
  intro l
  induction l with
  | nil => intro cur; simp [splitAccum]
  | cons c cs ih =>
    intro cur
    by_cases hc : (c == sep) = true
    · simp [splitAccum, hc, List.takeWhile_cons]
    · have hc' : (c == sep) = false := by simpa using hc
      simp only [splitAccum, hc', Bool.false_eq_true, if_false, List.takeWhile_cons,
        Bool.not_false, if_true]
      rw [ih (c :: cur)]
      simp

/-- The second field of a split is the chunk between the first and
second separator occurrences. -/
theorem splitAccum_second (sep : Char) : ∀ (l cur : List Char),
    l.contains sep = true →
    (splitAccum sep l cur).getD 1 [] =
      ((l.dropWhile (fun c => !(c == sep))).drop 1).takeWhile (fun c => !(c == sep)) := by
  intro l
  induction l with
  | nil => intro cur h; simp at h
  | cons c cs ih =>
    intro cur h
    by_cases hc : (c == sep) = true
    · simp only [splitAccum, hc, if_true, List.dropWhile_cons, Bool.not_true,
        Bool.false_eq_true, if_false, List.drop_succ_cons, List.drop_zero]
      rw [show ((cur.reverse :: splitAccum sep cs []).getD 1 [] =
        (splitAccum sep cs []).getD 0 []) from rfl]
      rw [splitAccum_head sep cs []]
      simp
    · have hc' : (c == sep) = false := by simpa using hc
      have hcs : (sep == c) = false := by
        rw [beq_eq_false_iff_ne] at hc' ⊢
        exact fun e => hc' e.symm
      simp only [splitAccum, hc', Bool.false_eq_true, if_false, List.dropWhile_cons,
        Bool.not_false, if_true]
      refine ih (c :: cur) ?_
      simp only [List.contains_cons, hcs, Bool.false_or] at h
      exact h

/-- Index 1 of a mapped split, once it is known to exist. -/
theorem mapMk_getD (L : List (List Char)) (h : 2 ≤ L.length) :
    (L.map String.mk).getD 1 "" = String.mk (L.getD 1 []) := by
  match L, h with
  | _ :: _ :: _, _ => rfl

/-- C6: IdentifierCodec satisfies the round-trip law
`decode(encode(ns, id)) = id` for every well-formed composite key
`<namespace>:<listing_id>` (both components colon-free, encode being
base64 of the UTF-8 text), and for every malformed input — a base64
decode error (under the non-strict decoder, a quad left incomplete at
the end of the input), failed UTF-8 decode, decoded text without a
colon, or a non-string identifier — decode returns absence; being a
total Lean function it never raises. -/
theorem claim_C6 :
    (∀ ns id : String, (∀ c ∈ ns.data, (c == ':') = false) →
      (∀ c ∈ id.data, (c == ':') = false) →
      decodeRoomId (JSON.str (encodeId ns id)) = some id) ∧
    (∀ s : String, b64DecodeString s = none → decodeRoomId (JSON.str s) = none) ∧
    (∀ (s : String) (bytes : List Nat), b64DecodeString s = some bytes →
      utf8DecodeString bytes = none → decodeRoomId (JSON.str s) = none) ∧
    (∀ (s : String) (bytes : List Nat) (decoded : String),
      b64DecodeString s = some bytes → utf8DecodeString bytes = some decoded →
      decoded.data.contains ':' = false → decodeRoomId (JSON.str s) = none) ∧
    (∀ j : JSON, (∀ s, j ≠ JSON.str s) → decodeRoomId j = none) := by
  refine ⟨decodeRoomId_encodeId, ?_, ?_, ?_, ?_⟩
  · intro s h
    simp only [decodeRoomId, h]
  · intro s bytes h1 h2
    simp only [decodeRoomId, h1, h2]
  · intro s bytes decoded h1 h2 h3
    simp only [decodeRoomId, h1, h2, h3, Bool.false_eq_true, if_false]
  · intro j hj
    cases j with
    | str s => exact absurd rfl (hj s)
    | null => rfl
    | bool b => rfl
    | num n => rfl
    | arr l => rfl
    | obj l => rfl

/-- Witness for C6: the round-trip at the key `L:1` and absence on the
malformed opaque id `"a"` (one leftover base64 character). -/
theorem claim_C6_witness :
    decodeRoomId (JSON.str (encodeId "L" "1")) = some "1" ∧
    decodeRoomId (JSON.str "a") = none := by
  constructor
  · exact claim_C6.1 "L" "1" (by decide) (by decide)
  · exact claim_C6.2.1 "a" (by rfl)

/-- C10: for every opaque identifier decoding (via base64 and UTF-8) to
a text with at least one colon, the extracted listing id is exactly the
second colon-separated field — the text between the first and the
second colon, anything after a second colon discarded; and a decoded
text whose second field is empty (for instance one ending in its only
colon) makes `search_listings` drop the result exactly as if the
identifier were undecodable. -/
theorem claim_C10 :
    (∀ text : String, text.data.contains ':' = true →
      decodeRoomId (JSON.str (b64EncodeString (utf8EncodeString text))) =
        some (String.mk
          (((text.data.dropWhile (fun c => !(c == ':'))).drop 1).takeWhile
            (fun c => !(c == ':'))))) ∧
    (∀ (e : String) (position page : Nat), decodeRoomId (JSON.str e) = some "" →
      truthy (JSON.str e) = true →
      processResult (JSON.obj [("demandStayListing", JSON.obj [("id", JSON.str e)])])
        position page = Except.ok none) := by
  constructor
  · intro text h
    have hb : b64DecodeString (b64EncodeString (utf8EncodeString text)) =
        some (utf8EncodeString text) :=
      b64_roundtrip _ (utf8EncodeList_lt _)
    simp only [decodeRoomId, hb, utf8_roundtrip, h, if_true]
    unfold pySplit
    rw [mapMk_getD _ (splitAccum_two ':' text.data [] h),
      splitAccum_second ':' text.data [] h]
  · intro e position page hdec htr
    simp only [truthy] at htr
    have he : ¬(e.endPos = 0) := by simpa [String.isEmpty] using htr
    simp [processResult, ridStepOf, asObj, objGetD, lookupField, truthy,
      String.isEmpty, hdec, he]

/-- Witness for C10: the text `ns:abc:junk` yields exactly `abc`, and a
result whose id decodes to `ns:` (empty second field) is dropped. -/
theorem claim_C10_witness :
    decodeRoomId (JSON.str (b64EncodeString (utf8EncodeString "ns:abc:junk"))) =
      some "abc" ∧
    processResult (JSON.obj [("demandStayListing",
      JSON.obj [("id", JSON.str (encodeId "ns" ""))])]) 5 1 = Except.ok none := by
  constructor
  · exact (claim_C10.1 "ns:abc:junk" (by decide)).trans (by rfl)
  · exact claim_C10.2 (encodeId "ns" "") 5 1 (by rfl) (by rfl)

/-! ## Lemmas: the search phase (positions, ordering, partial success) -/

/-- The position a record carries (records built by `processResult`
always store an integer there). -/
def getPos (d : Dict) : Int :=
  match lookupField d "position" with
  | some (JSON.num n) => n
  | _ => 0

/-- The fixed key set of a search-level record, in insertion order. -/
def searchKeys : List String :=
  ["position", "page", "room_id", "title", "price",
   "avg_rating_search", "reviews_count_search", "is_guest_favorite_search"]

/-- A retained record is exactly the eight-field literal of lines
271-280, carrying the supplied position and page. -/
theorem processResult_shape (result : JSON) (position page : Nat) (d : Dict)
    (h : processResult result position page = Except.ok (some d)) :
    ∃ rid title price avg cnt gf,
      d = [("position", JSON.num position), ("page", JSON.num page),
        ("room_id", JSON.str rid), ("title", title), ("price", price),
        ("avg_rating_search", JSON.str avg), ("reviews_count_search", JSON.str cnt),
        ("is_guest_favorite_search", JSON.bool gf)] := by
  unfold processResult at h
  cases hobj : asObj result with
  | error e => rw [hobj] at h; exact absurd h (by simp)
  | ok robj =>
    rw [hobj] at h
    simp only [] at h
    cases hrid : ridStepOf robj with
    | error e => rw [hrid] at h; exact absurd h (by simp)
    | ok ro =>
      rw [hrid] at h
      cases ro with
      | none => exact absurd h (by simp)
      | some rid =>
        simp only [] at h
        by_cases hemp : rid.isEmpty = true
        · rw [if_pos hemp] at h; exact absurd h (by simp)
        · rw [if_neg hemp] at h
          cases hpr : priceStepOf robj with
          | error e => rw [hpr] at h; exact absurd h (by simp)
          | ok price =>
            rw [hpr] at h
            simp only [] at h
            cases hrt : ratingStepOf robj with
            | error e => rw [hrt] at h; exact absurd h (by simp)
            | ok av =>
              rw [hrt] at h
              obtain ⟨avg, cnt⟩ := av
              simp only [] at h
              cases hbi : pyIter (objGetD robj "badges" (JSON.arr [])) with
              | error e => rw [hbi] at h; exact absurd h (by simp)
              | ok badgeItems =>
                rw [hbi] at h
                simp only [] at h
                cases hgf : findGuestFavorite badgeItems with
                | error e => rw [hgf] at h; exact absurd h (by simp)
                | ok gf =>
                  rw [hgf] at h
                  simp only [Except.ok.injEq, Option.some.injEq] at h
                  exact ⟨_, _, _, _, _, _, h.symm⟩

/-- The position stored in a retained record is its supplied counter
value. -/
theorem processResult_getPos (result : JSON) (position page : Nat) (d : Dict)
    (h : processResult result position page = Except.ok (some d)) :
    getPos d = (position : Int) := by
  obtain ⟨rid, title, price, avg, cnt, gf, rfl⟩ :=
    processResult_shape result position page d h
  rfl

/-- The retained record has exactly the eight search-level keys. -/
theorem processResult_keys (result : JSON) (position page : Nat) (d : Dict)
    (h : processResult result position page = Except.ok (some d)) :
    d.map Prod.fst = searchKeys := by
  obtain ⟨rid, title, price, avg, cnt, gf, rfl⟩ :=
    processResult_shape result position page d h
  rfl

/-- C2-level accounting for one page: the counter advances exactly once
per raw result, and every retained record was built from the raw result
at some index `i` with position `pos + i + 1` (its one-based rank in
the raw upstream list). -/
theorem processResults_spec : ∀ (rs : List JSON) (pos page pos2 : Nat)
    (recs : List Dict),
    processResults rs pos page = Except.ok (pos2, recs) →
    pos2 = pos + rs.length ∧
    ∀ d ∈ recs, ∃ i, i < rs.length ∧
      processResult (rs.getD i JSON.null) (pos + i + 1) page = Except.ok (some d) := by
  intro rs
  induction rs with
  | nil =>
    intro pos page pos2 recs h
    simp only [processResults, Except.ok.injEq, Prod.mk.injEq] at h
    obtain ⟨h1, h2⟩ := h
    subst h1; subst h2
    exact ⟨rfl, by simp⟩
  | cons r rs ih =>
    intro pos page pos2 recs h
    simp only [processResults] at h
    cases hr : processResult r (pos + 1) page with
    | error e => rw [hr] at h; exact absurd h (by simp)
    | ok recOpt =>
      rw [hr] at h
      cases hrest : processResults rs (pos + 1) page with
      | error e => rw [hrest] at h; exact absurd h (by simp)
      | ok p2 =>
        rw [hrest] at h
        obtain ⟨finalPos, recs'⟩ := p2
        simp only [Except.ok.injEq, Prod.mk.injEq] at h
        obtain ⟨h1, h2⟩ := h
        obtain ⟨hlen, hmem⟩ := ih (pos + 1) page finalPos recs' hrest
        subst h1
        constructor
        · simp only [List.length_cons]; omega
        · intro d hd
          rw [← h2] at hd
          cases recOpt with
          | none =>
            obtain ⟨i, hi, hpi⟩ := hmem d hd
            exact ⟨i + 1, by simpa using hi, by
              simpa [List.getD_cons_succ, Nat.add_assoc, Nat.add_comm 1 i] using hpi⟩
          | some d0 =>
            rcases List.mem_cons.mp hd with rfl | hd'
            · exact ⟨0, by simp, by simpa using hr⟩
            · obtain ⟨i, hi, hpi⟩ := hmem d hd'
              exact ⟨i + 1, by simpa using hi, by
                simpa [List.getD_cons_succ, Nat.add_assoc, Nat.add_comm 1 i] using hpi⟩

/-- Ordering and bounds for one page: retained records carry strictly
increasing positions inside `(pos, pos2]`, and have the search-record
key set. -/
theorem processResults_sorted : ∀ (rs : List JSON) (pos page pos2 : Nat)
    (recs : List Dict),
    processResults rs pos page = Except.ok (pos2, recs) →
    pos ≤ pos2 ∧
    List.Pairwise (fun a b => getPos a < getPos b) recs ∧
    ∀ d ∈ recs, (pos : Int) < getPos d ∧ getPos d ≤ (pos2 : Int) ∧
      d.map Prod.fst = searchKeys := by
  intro rs
  induction rs with
  | nil =>
    intro pos page pos2 recs h
    simp only [processResults, Except.ok.injEq, Prod.mk.injEq] at h
    obtain ⟨h1, h2⟩ := h
    subst h1; subst h2
    exact ⟨le_refl _, List.Pairwise.nil, by simp⟩
  | cons r rs ih =>
    intro pos page pos2 recs h
    simp only [processResults] at h
    cases hr : processResult r (pos + 1) page with
    | error e => rw [hr] at h; exact absurd h (by simp)
    | ok recOpt =>
      rw [hr] at h
      cases hrest : processResults rs (pos + 1) page with
      | error e => rw [hrest] at h; exact absurd h (by simp)
      | ok p2 =>
        rw [hrest] at h
        obtain ⟨finalPos, recs'⟩ := p2
        simp only [Except.ok.injEq, Prod.mk.injEq] at h
        obtain ⟨h1, h2⟩ := h
        obtain ⟨hle, hpair, hbnd⟩ := ih (pos + 1) page finalPos recs' hrest
        subst h1
        cases recOpt with
        | none =>
          subst h2
          refine ⟨by omega, hpair, ?_⟩
          intro d hd
          obtain ⟨hlt, hle2, hkeys⟩ := hbnd d hd
          exact ⟨by omega, hle2, hkeys⟩
        | some d0 =>
          subst h2
          have hpos0 : getPos d0 = ((pos + 1 : Nat) : Int) :=
            processResult_getPos r (pos + 1) page d0 hr
          have hkeys0 : d0.map Prod.fst = searchKeys :=
            processResult_keys r (pos + 1) page d0 hr
          refine ⟨by omega, ?_, ?_⟩
          · refine List.Pairwise.cons ?_ hpair
            intro b hb
            have := (hbnd b hb).1
            rw [hpos0]
            omega
          · intro d hd
            rcases List.mem_cons.mp hd with rfl | hd'
            · refine ⟨by rw [hpos0]; omega, by rw [hpos0]; omega, hkeys0⟩
            · obtain ⟨hlt, hle2, hkeys⟩ := hbnd d hd'
              exact ⟨by omega, hle2, hkeys⟩

/-- Loop invariant of `searchGo`: accumulated records are strictly
sorted by position, bounded by the current counter, and schema-shaped. -/
def searchInv (pos : Nat) (acc : List Dict) : Prop :=
  List.Pairwise (fun a b => getPos a < getPos b) acc ∧
  ∀ d ∈ acc, getPos d ≤ (pos : Int) ∧ d.map Prod.fst = searchKeys

/-- `searchGo` preserves the loop invariant up to some final counter. -/
theorem searchGo_inv (pages : Nat → PageResponse) : ∀ (fuel pageCount pos : Nat)
    (acc : List Dict), searchInv pos acc →
    ∃ posF, searchInv posF (searchGo pages fuel pageCount pos acc) := by
  intro fuel
  induction fuel with
  | zero => intro pc pos acc hinv; exact ⟨pos, hinv⟩
  | succ f ih =>
    intro pc pos acc hinv
    rw [searchGo]
    cases pages (pc + 1) with
    | transportError => exact ⟨pos, hinv⟩
    | httpResponse status body =>
      simp only []
      by_cases hst : status ≠ 200
      · rw [if_pos hst]; exact ⟨pos, hinv⟩
      · rw [if_neg hst]
        cases body with
        | none => exact ⟨pos, hinv⟩
        | some data =>
          simp only []
          cases hasErrorsKey data with
          | error e => exact ⟨pos, hinv⟩
          | ok b =>
            cases b with
            | true => exact ⟨pos, hinv⟩
            | false =>
              simp only []
              cases resultsNode data with
              | error e => exact ⟨pos, hinv⟩
              | ok results =>
                simp only []
                cases getAttrD results "searchResults" (JSON.arr []) with
                | error e => exact ⟨pos, hinv⟩
                | ok srJ =>
                  simp only []
                  cases pyIter srJ with
                  | error e => exact ⟨pos, hinv⟩
                  | ok items =>
                    simp only []
                    cases hpr : processResults items pos (pc + 1) with
                    | error e => exact ⟨pos, hinv⟩
                    | ok p2 =>
                      obtain ⟨pos2, recs⟩ := p2
                      obtain ⟨hle, hpair, hbnd⟩ :=
                        processResults_sorted items pos (pc + 1) pos2 recs hpr
                      obtain ⟨hpacc, hbacc⟩ := hinv
                      have hinv2 : searchInv pos2 (acc ++ recs) := by
                        constructor
                        · rw [List.pairwise_append]
                          refine ⟨hpacc, hpair, ?_⟩
                          intro a ha b hb
                          have h1 := (hbacc a ha).1
                          have h2 := (hbnd b hb).1
                          omega
                        · intro d hd
                          rcases List.mem_append.mp hd with hd | hd
                          · obtain ⟨h1, h2⟩ := hbacc d hd
                            exact ⟨by omega, h2⟩
                          · obtain ⟨h1, h2, h3⟩ := hbnd d hd
                            exact ⟨h2, h3⟩
                      simp only []
                      by_cases hempt : recs.isEmpty = true
                      · rw [if_pos hempt]; exact ⟨pos2, hinv2⟩
                      · rw [if_neg hempt]
                        cases nextCursorTruthy results with
                        | error e => exact ⟨pos2, hinv2⟩
                        | ok cb =>
                          cases cb with
                          | false => exact ⟨pos2, hinv2⟩
                          | true => exact ih (pc + 1) pos2 (acc ++ recs) hinv2

/-- C3: for every scenario (every page oracle and search parameters),
the positions of the records returned by the paginator are strictly
increasing in the order the records appear in the returned sequence,
hence pairwise distinct. -/
theorem claim_C3 (pages : Nat → PageResponse) (check_in check_out : String)
    (guests : Nat) :
    List.Pairwise (fun a b => getPos a < getPos b)
      (search_listings pages check_in check_out guests) ∧
    List.Pairwise (fun a b => getPos a ≠ getPos b)
      (search_listings pages check_in check_out guests) := by
  obtain ⟨posF, hinv⟩ :=
    searchGo_inv pages MAX_PAGES 0 0 [] ⟨List.Pairwise.nil, by simp⟩
  exact ⟨hinv.1, hinv.1.imp (fun h => ne_of_lt h)⟩

/-- C2: during the search phase the global position counter advances
exactly once per raw result of a page (before any identifier decoding),
and every retained record was built from the raw result at some index
`i`, carrying position `pos + i + 1` — its rank in raw upstream order —
so records dropped for an undecodable identifier leave gaps. -/
theorem claim_C2 : ∀ (rs : List JSON) (pos page pos2 : Nat) (recs : List Dict),
    processResults rs pos page = Except.ok (pos2, recs) →
    pos2 = pos + rs.length ∧
    ∀ d ∈ recs, ∃ i, i < rs.length ∧
      processResult (rs.getD i JSON.null) (pos + i + 1) page = Except.ok (some d) ∧
      dictGet d "position" = some (JSON.num (pos + i + 1)) := by
  intro rs pos page pos2 recs h
  obtain ⟨h1, h2⟩ := processResults_spec rs pos page pos2 recs h
  refine ⟨h1, ?_⟩
  intro d hd
  obtain ⟨i, hi, hpi⟩ := h2 d hd
  refine ⟨i, hi, hpi, ?_⟩
  obtain ⟨rid, title, price, avg, cnt, gf, rfl⟩ := processResult_shape _ _ _ _ hpi
  rfl

/-- A raw search result whose opaque id decodes to listing `1`
(`TDox` is base64 of `L:1`). -/
def demoResOne : JSON :=
  JSON.obj [("demandStayListing", JSON.obj [("id", JSON.str "TDox")])]

/-- A raw search result with no identifier (dropped after counting). -/
def demoResBad : JSON := JSON.obj []

/-- A raw search result whose opaque id decodes to listing `3`
(`TDoz` is base64 of `L:3`). -/
def demoResThree : JSON :=
  JSON.obj [("demandStayListing", JSON.obj [("id", JSON.str "TDoz")])]

/-- The record retained for `demoResOne` at raw rank 1. -/
def demoRecOne : Dict :=
  [("position", JSON.num 1), ("page", JSON.num 1), ("room_id", JSON.str "1"),
   ("title", JSON.str ""), ("price", JSON.null), ("avg_rating_search", JSON.str ""),
   ("reviews_count_search", JSON.str ""), ("is_guest_favorite_search", JSON.bool false)]

/-- The record retained for `demoResThree` at raw rank 3: the dropped
middle result consumed position 2, leaving a gap. -/
def demoRecThree : Dict :=
  [("position", JSON.num 3), ("page", JSON.num 1), ("room_id", JSON.str "3"),
   ("title", JSON.str ""), ("price", JSON.null), ("avg_rating_search", JSON.str ""),
   ("reviews_count_search", JSON.str ""), ("is_guest_favorite_search", JSON.bool false)]

/-- Witness for C2: a three-result page whose middle result has no
decodable identifier ends with the counter at 3 and retains records at
positions 1 and 3. -/
theorem claim_C2_witness :
    (3 : Nat) = 0 + [demoResOne, demoResBad, demoResThree].length ∧
    dictGet demoRecThree "position" = some (JSON.num 3) := by
  have h := claim_C2 [demoResOne, demoResBad, demoResThree] 0 1 3
    [demoRecOne, demoRecThree] (by rfl)
  exact ⟨h.1, rfl⟩

/-- Responses whose handling ends pagination as a failure: a raised
transport error, a non-200 status, or a body `response.json()` cannot
parse. -/
def pageFails : PageResponse → Bool
  | PageResponse.transportError => true
  | PageResponse.httpResponse status body => status != 200 || body.isNone

/-- The paginator only ever appends to what it has accumulated. -/
theorem searchGo_append (pages : Nat → PageResponse) : ∀ (fuel pageCount pos : Nat)
    (acc : List Dict), ∃ suffix, searchGo pages fuel pageCount pos acc = acc ++ suffix := by
  intro fuel
  induction fuel with
  | zero => intro pc pos acc; exact ⟨[], by simp [searchGo]⟩
  | succ f ih =>
    intro pc pos acc
    rw [searchGo]
    cases pages (pc + 1) with
    | transportError => exact ⟨[], by simp⟩
    | httpResponse status body =>
      simp only []
      by_cases hst : status ≠ 200
      · rw [if_pos hst]; exact ⟨[], by simp⟩
      · rw [if_neg hst]
        cases body with
        | none => exact ⟨[], by simp⟩
        | some data =>
          simp only []
          cases hasErrorsKey data with
          | error e => exact ⟨[], by simp⟩
          | ok b =>
            cases b with
            | true => exact ⟨[], by simp⟩
            | false =>
              simp only []
              cases resultsNode data with
              | error e => exact ⟨[], by simp⟩
              | ok results =>
                simp only []
                cases getAttrD results "searchResults" (JSON.arr []) with
                | error e => exact ⟨[], by simp⟩
                | ok srJ =>
                  simp only []
                  cases pyIter srJ with
                  | error e => exact ⟨[], by simp⟩
                  | ok items =>
                    simp only []
                    cases processResults items pos (pc + 1) with
                    | error e => exact ⟨[], by simp⟩
                    | ok p2 =>
                      obtain ⟨pos2, recs⟩ := p2
                      simp only []
                      by_cases hempt : recs.isEmpty = true
                      · rw [if_pos hempt]; exact ⟨recs, rfl⟩
                      · rw [if_neg hempt]
                        cases nextCursorTruthy results with
                        | error e => exact ⟨recs, rfl⟩
                        | ok cb =>
                          cases cb with
                          | false => exact ⟨recs, rfl⟩
                          | true =>
                            obtain ⟨suffix, hsuf⟩ := ih (pc + 1) pos2 (acc ++ recs)
                            exact ⟨recs ++ suffix, by rw [hsuf, List.append_assoc]⟩

/-- C8 (amended): when the response to the requested page is a
transport error, a non-200 status, or an undecodable body, pagination
stops and returns exactly the records accumulated from the prior pages,
without raising; in particular a failing very first page yields the
empty result.  (The converse direction of the original claim is false:
see the counterexample — a successful first page with zero results is
also empty-handed.) -/
theorem claim_C8 :
    (∀ (pages : Nat → PageResponse) (fuel pageCount pos : Nat) (acc : List Dict),
      pageFails (pages (pageCount + 1)) = true →
      searchGo pages (fuel + 1) pageCount pos acc = acc) ∧
    (∀ (pages : Nat → PageResponse) (check_in check_out : String) (guests : Nat),
      pageFails (pages 1) = true →
      search_listings pages check_in check_out guests = []) := by
  have h1 : ∀ (pages : Nat → PageResponse) (fuel pageCount pos : Nat) (acc : List Dict),
      pageFails (pages (pageCount + 1)) = true →
      searchGo pages (fuel + 1) pageCount pos acc = acc := by
    intro pages fuel pageCount pos acc hfail
    rw [searchGo]
    cases hpg : pages (pageCount + 1) with
    | transportError => rfl
    | httpResponse status body =>
      rw [hpg] at hfail
      simp only [pageFails, Bool.or_eq_true, bne_iff_ne, Option.isNone_iff_eq_none] at hfail
      simp only []
      rcases hfail with hst | hbody
      · rw [if_pos hst]
      · by_cases hst : status ≠ 200
        · rw [if_pos hst]
        · rw [if_neg hst]
          subst hbody
          rfl
  exact ⟨h1, fun pages check_in check_out guests h => h1 pages 14 0 0 [] h⟩

/-- Witness for C8: a transport error on the very first page yields the
empty record set. -/
theorem claim_C8_witness :
    search_listings (fun _ => PageResponse.transportError) "ci" "co" 2 = [] :=
  claim_C8.2 (fun _ => PageResponse.transportError) "ci" "co" 2 (by rfl)

/-- An upstream that always answers 200 with a decodable body holding
no results at all. -/
def emptyPageOracle : Nat → PageResponse :=
  fun _ => PageResponse.httpResponse 200 (some (JSON.obj []))

/-- Counterexample to C8 as stated: the empty-handed outcome does not
imply a failing first page — a successful, decodable first page with
zero search results also returns the empty record set. -/
theorem claim_C8_counterexample :
    search_listings emptyPageOracle "ci" "co" 2 = [] ∧
    pageFails (emptyPageOracle 1) = false := ⟨rfl, rfl⟩

/-! ## Lemmas and claims: DetailNormalizer -/

/-- The fixed EnrichedFields key list, in the dict-literal order of
lines 327-467. -/
def enrichedKeys : List String :=
  ["room_type", "bedrooms", "beds", "bathrooms", "guests_capacity",
   "rating_overall", "rating_accuracy", "rating_cleanliness", "rating_checkin",
   "rating_communication", "rating_location", "rating_value", "reviews_count",
   "host_id", "host_name", "is_superhost", "is_guest_favorite", "top_percent",
   "badges", "instant_book", "cancellation_policy", "min_nights", "max_nights",
   "amenities_count",
   "has_wifi", "has_kitchen", "has_washer", "has_dryer", "has_air_conditioning",
   "has_heating", "has_tv", "has_hair_dryer", "has_iron", "has_hangers",
   "has_essentials", "has_shampoo", "has_hot_water",
   "has_free_parking", "has_paid_parking", "has_street_parking", "has_garage",
   "has_ev_charger",
   "has_pool", "has_private_pool", "has_shared_pool", "has_hot_tub", "has_gym",
   "has_bbq_grill", "has_outdoor_furniture", "has_outdoor_dining",
   "has_patio_balcony", "has_garden", "has_backyard", "has_fire_pit",
   "has_beach_access", "has_lake_access", "has_ski_in_out",
   "has_city_view", "has_mountain_view", "has_ocean_view", "has_sea_view",
   "has_lake_view", "has_garden_view", "has_pool_view",
   "has_coffee_maker", "has_espresso_machine", "has_oven", "has_stove",
   "has_microwave", "has_refrigerator", "has_freezer", "has_dishwasher",
   "has_dishes_silverware", "has_cooking_basics",
   "has_bathtub", "has_shower", "has_bidet", "has_body_soap", "has_conditioner",
   "has_cleaning_products",
   "has_bed_linens", "has_extra_pillows", "has_blackout_shades", "has_safe",
   "has_fireplace", "has_ceiling_fan",
   "has_workspace", "has_desk",
   "has_crib", "has_high_chair", "has_baby_safety_gates",
   "has_children_books_toys", "has_baby_bath",
   "has_smoke_alarm", "has_carbon_monoxide_alarm", "has_fire_extinguisher",
   "has_first_aid_kit", "has_security_cameras", "has_lock_on_door",
   "has_self_checkin", "has_lockbox", "has_smart_lock", "has_doorman",
   "has_pets_allowed",
   "has_step_free_entrance", "has_wide_entrance", "has_accessible_parking",
   "has_grab_bars", "has_elevator",
   "has_netflix", "has_streaming_service", "has_cable_tv", "has_game_console",
   "has_books", "has_board_games",
   "has_breakfast", "has_long_term_stays", "has_luggage_dropoff",
   "has_private_entrance", "has_sauna", "has_piano"]

/-- The 97 boolean amenity-flag keys (the `has_*` suffix of the schema). -/
def amenityFlagKeys : List String := enrichedKeys.drop 24

/-- The field list of a payload (a non-dict has none). -/
def fieldsOf : JSON → List (String × JSON)
  | JSON.obj f => f
  | _ => []

/-- C4: DetailNormalizer is total — `extract_details(None)` returns the
complete fixed schema, every boolean field `False`, every text and
numeric-as-string field the empty string, and `amenities_count = 0`; no
key of the schema is omitted (the key list of every produced record,
default or computed, is exactly the fixed 121-key schema). -/
theorem claim_C4 :
    extract_details none = Except.ok defaultDetails ∧
    defaultDetails.map Prod.fst = enrichedKeys ∧
    (∀ (dobj : List (String × JSON)) (titles : List String),
      (buildDetails dobj titles).map Prod.fst = enrichedKeys) ∧
    (defaultDetails.all (fun p =>
      match p.2 with
      | JSON.bool b => b == false
      | JSON.str s => s.isEmpty
      | JSON.num n => p.1 == "amenities_count" && n == 0
      | _ => false)) = true ∧
    lookupField defaultDetails "amenities_count" = some (JSON.num 0) := by
  refine ⟨rfl, rfl, fun dobj titles => rfl, ?_, rfl⟩
  rfl

/-- C7: instant-book is resolved by the precedence chain in which the
nested host-profile path
`host_details.data.presentation.userProfileContainer.userProfile.managedListings[0].instantBookEnabled`
wins over the three flatter boolean fields: the stored value is the
boolean `or` of the nested path's verdict and the flat fallback, so a
truthy nested value forces `True` whatever the flat fields say, and
when the flat fields are absent the nested verdict alone is returned. -/
theorem claim_C7 : ∀ (d : JSON) (r : Dict),
    extract_details (some d) = Except.ok r →
    dictGet r "instant_book" =
      some (JSON.bool (ibNested (fieldsOf d) || ibFlat (fieldsOf d))) := by
  intro d r h
  unfold extract_details at h
  simp only [] at h
  by_cases ht : truthy d = true
  · rw [if_pos ht] at h
    cases d with
    | obj dobj =>
      simp only [] at h
      cases hti : amenityTitles (objGetD dobj "amenities" (JSON.arr [])) with
      | error e => rw [hti] at h; exact absurd h (by simp)
      | ok titles =>
        rw [hti] at h
        simp only [Except.ok.injEq] at h
        subst h
        rfl
    | null => exact absurd h (by simp)
    | bool b => exact absurd h (by simp)
    | num n => exact absurd h (by simp)
    | str s => exact absurd h (by simp)
    | arr l => exact absurd h (by simp)
  · rw [if_neg ht] at h
    simp only [Except.ok.injEq] at h
    subst h
    cases d with
    | obj l =>
      have : l.isEmpty = true := by
        simpa [truthy] using ht
      rw [List.isEmpty_iff] at this
      subst this
      rfl
    | null => rfl
    | bool b => rfl
    | num n => rfl
    | str s => rfl
    | arr l => rfl

/-- A payload carrying the instant-book value only at the nested
host-profile path, with all three flat fields absent. -/
def ibNestedOnly : JSON :=
  JSON.obj [("host_details", JSON.obj [("data", JSON.obj [("presentation",
    JSON.obj [("userProfileContainer", JSON.obj [("userProfile",
      JSON.obj [("managedListings", JSON.arr [JSON.obj
        [("instantBookEnabled", JSON.bool true)]])])])])])])]

/-- Witness for C7: with the value only at the nested path, the nested
verdict is returned. -/
theorem claim_C7_witness :
    dictGet (buildDetails (fieldsOf ibNestedOnly) []) "instant_book" =
      some (JSON.bool true) := by
  have h := claim_C7 ibNestedOnly (buildDetails (fieldsOf ibNestedOnly) []) (by rfl)
  exact h.trans (by rfl)

/-- C9: an amenity item lacking an `available` key entirely is treated
as available — counted and its lower-cased title joins the blob; an
item is excluded when `available` is explicitly `False` or its title is
missing or empty; in general, for boolean availability, an item is
kept exactly when its title is a nonempty string and `available` is not
`False`. -/
theorem claim_C9 :
    (∀ (fields : List (String × JSON)) (t : String),
      lookupField fields "available" = none →
      lookupField fields "title" = some (JSON.str t) → t ≠ "" →
      amenityTitles (JSON.arr [JSON.obj [("values", JSON.arr [JSON.obj fields])]]) =
        Except.ok [pyLower t]) ∧
    (∀ fields : List (String × JSON),
      lookupField fields "available" = some (JSON.bool false) →
      amenityTitles (JSON.arr [JSON.obj [("values", JSON.arr [JSON.obj fields])]]) =
        Except.ok []) ∧
    (∀ fields : List (String × JSON),
      lookupField fields "title" = none →
      amenityTitles (JSON.arr [JSON.obj [("values", JSON.arr [JSON.obj fields])]]) =
        Except.ok []) ∧
    (∀ fields : List (String × JSON),
      lookupField fields "title" = some (JSON.str "") →
      amenityTitles (JSON.arr [JSON.obj [("values", JSON.arr [JSON.obj fields])]]) =
        Except.ok []) ∧
    (∀ (fields : List (String × JSON)) (t : String) (b : Bool),
      lookupField fields "title" = some (JSON.str t) →
      lookupField fields "available" = some (JSON.bool b) →
      amenityTitles (JSON.arr [JSON.obj [("values", JSON.arr [JSON.obj fields])]]) =
        Except.ok (if t ≠ "" ∧ b = true then [pyLower t] else [])) := by
  refine ⟨?_, ?_, ?_, ?_, ?_⟩
  · intro fields t hav hti hne
    have hemp : t.isEmpty = false := by
      rcases h : t.isEmpty with _ | _
      · rfl
      · exact absurd ((String.isEmpty_iff t).mp h) hne
    simp [amenityTitles, amenityCatsTitles, amenityItemsTitles, objGetD, lookupField,
      hav, hti, truthy, hemp]
  · intro fields hav
    simp [amenityTitles, amenityCatsTitles, amenityItemsTitles, objGetD, lookupField,
      hav, truthy]
  · intro fields hti
    have h0 : "".isEmpty = true := rfl
    simp [amenityTitles, amenityCatsTitles, amenityItemsTitles, objGetD, lookupField,
      hti, truthy, h0]
  · intro fields hti
    have h0 : "".isEmpty = true := rfl
    simp [amenityTitles, amenityCatsTitles, amenityItemsTitles, objGetD, lookupField,
      hti, truthy, h0]
  · intro fields t b hti hav
    by_cases hne : t = ""
    · subst hne
      have h0 : "".isEmpty = true := rfl
      simp [amenityTitles, amenityCatsTitles, amenityItemsTitles, objGetD, lookupField,
        hti, hav, truthy, h0]
    · have hemp : t.isEmpty = false := by
        rcases h : t.isEmpty with _ | _
        · rfl
        · exact absurd ((String.isEmpty_iff t).mp h) hne
      cases b with
      | false =>
        simp [amenityTitles, amenityCatsTitles, amenityItemsTitles, objGetD,
          lookupField, hti, hav, truthy, hemp, hne]
      | true =>
        simp [amenityTitles, amenityCatsTitles, amenityItemsTitles, objGetD,
          lookupField, hti, hav, truthy, hemp, hne]

/-- Witness for C9: the item `{"title": "Pool"}` with no `available`
key is counted and contributes `pool` to the blob. -/
theorem claim_C9_witness :
    amenityTitles (JSON.arr [JSON.obj [("values",
      JSON.arr [JSON.obj [("title", JSON.str "Pool")]])]]) = Except.ok ["pool"] := by
  have h := claim_C9.1 [("title", JSON.str "Pool")] "Pool" (by rfl) (by rfl) (by decide)
  exact h.trans (by rfl)

/-- The items pass of the amenity flattening collects exactly the
available items. -/
theorem amenityItemsTitles_length : ∀ (items : List JSON) (ts : List String),
    amenityItemsTitles items = Except.ok ts →
    ts.length = (items.filter itemAvailable).length := by
  intro items
  induction items with
  | nil => intro ts h; simp only [amenityItemsTitles, Except.ok.injEq] at h; subst h; rfl
  | cons item rest ih =>
    intro ts h
    cases item with
    | obj io =>
      simp only [amenityItemsTitles] at h
      by_cases hc : (truthy (objGetD io "title" (JSON.str "")) &&
          truthy (objGetD io "available" (JSON.bool true))) = true
      · rw [if_pos hc] at h
        cases hti : objGetD io "title" (JSON.str "") with
        | str s =>
          rw [hti] at h
          cases hrest : amenityItemsTitles rest with
          | error e => rw [hrest] at h; exact absurd h (by simp)
          | ok ts' =>
            rw [hrest] at h
            simp only [Except.ok.injEq] at h
            subst h
            simp only [List.filter_cons, itemAvailable, hc, if_true, List.length_cons]
            rw [ih ts' hrest]
        | null => rw [hti] at h; exact absurd h (by simp)
        | bool b => rw [hti] at h; exact absurd h (by simp)
        | num n => rw [hti] at h; exact absurd h (by simp)
        | arr l => rw [hti] at h; exact absurd h (by simp)
        | obj l => rw [hti] at h; exact absurd h (by simp)
      · rw [if_neg hc] at h
        have hfilter : itemAvailable (JSON.obj io) = false := by
          simp only [itemAvailable]
          exact Bool.not_eq_true _ |>.mp hc
        simp only [List.filter_cons, hfilter, Bool.false_eq_true, if_false]
        exact ih ts h
    | null =>
      simp only [amenityItemsTitles] at h
      simp only [List.filter_cons, itemAvailable, Bool.false_eq_true, if_false]
      exact ih ts h
    | bool b =>
      simp only [amenityItemsTitles] at h
      simp only [List.filter_cons, itemAvailable, Bool.false_eq_true, if_false]
      exact ih ts h
    | num n =>
      simp only [amenityItemsTitles] at h
      simp only [List.filter_cons, itemAvailable, Bool.false_eq_true, if_false]
      exact ih ts h
    | str s =>
      simp only [amenityItemsTitles] at h
      simp only [List.filter_cons, itemAvailable, Bool.false_eq_true, if_false]
      exact ih ts h
    | arr l =>
      simp only [amenityItemsTitles] at h
      simp only [List.filter_cons, itemAvailable, Bool.false_eq_true, if_false]
      exact ih ts h

/-- The categories pass of the amenity flattening collects exactly the
available items of well-shaped categories. -/
theorem amenityCatsTitles_length : ∀ (cats : List JSON) (ts : List String),
    amenityCatsTitles cats = Except.ok ts →
    ts.length = availableCountCats cats := by
  intro cats
  induction cats with
  | nil => intro ts h; simp only [amenityCatsTitles, Except.ok.injEq] at h; subst h; rfl
  | cons cat rest ih =>
    intro ts h
    cases cat with
    | obj co =>
      simp only [amenityCatsTitles] at h
      cases hval : objGetD co "values" (JSON.arr []) with
      | arr items =>
        rw [hval] at h
        simp only [] at h
        cases hits : amenityItemsTitles items with
        | error e => rw [hits] at h; exact absurd h (by simp)
        | ok ts1 =>
          rw [hits] at h
          cases hrest : amenityCatsTitles rest with
          | error e => rw [hrest] at h; exact absurd h (by simp)
          | ok ts2 =>
            rw [hrest] at h
            simp only [Except.ok.injEq] at h
            subst h
            simp only [availableCountCats, hval, List.length_append]
            rw [amenityItemsTitles_length items ts1 hits, ih ts2 hrest]
      | null => rw [hval] at h; simp only [availableCountCats, hval]; simpa using ih ts h
      | bool b => rw [hval] at h; simp only [availableCountCats, hval]; simpa using ih ts h
      | num n => rw [hval] at h; simp only [availableCountCats, hval]; simpa using ih ts h
      | str s => rw [hval] at h; simp only [availableCountCats, hval]; simpa using ih ts h
      | obj l => rw [hval] at h; simp only [availableCountCats, hval]; simpa using ih ts h
    | null =>
      simp only [amenityCatsTitles] at h
      simp only [availableCountCats]
      simpa using ih ts h
    | bool b =>
      simp only [amenityCatsTitles] at h
      simp only [availableCountCats]
      simpa using ih ts h
    | num n =>
      simp only [amenityCatsTitles] at h
      simp only [availableCountCats]
      simpa using ih ts h
    | str s =>
      simp only [amenityCatsTitles] at h
      simp only [availableCountCats]
      simpa using ih ts h
    | arr l =>
      simp only [amenityCatsTitles] at h
      simp only [availableCountCats]
      simpa using ih ts h

/-- The flattened title count equals the independent available count. -/
theorem amenityTitles_length (amen : JSON) (ts : List String)
    (h : amenityTitles amen = Except.ok ts) :
    ts.length = availableCount amen := by
  cases amen with
  | arr cats => exact amenityCatsTitles_length cats ts h
  | null => simp only [amenityTitles, Except.ok.injEq] at h; subst h; rfl
  | bool b => simp only [amenityTitles, Except.ok.injEq] at h; subst h; rfl
  | num n => simp only [amenityTitles, Except.ok.injEq] at h; subst h; rfl
  | str s => simp only [amenityTitles, Except.ok.injEq] at h; subst h; rfl
  | obj l => simp only [amenityTitles, Except.ok.injEq] at h; subst h; rfl

/-- One raw amenity item marked available. -/
def amenItem (t : String) : JSON :=
  JSON.obj [("title", JSON.str t), ("available", JSON.bool true)]

/-- A payload whose amenity list holds exactly `Pool`, `Free parking`
and `X-brand unlisted gadget`, all available. -/
def poolPayload : JSON :=
  JSON.obj [("amenities", JSON.arr [JSON.obj [("title", JSON.str "Best"),
    ("values", JSON.arr [amenItem "Pool", amenItem "Free parking",
      amenItem "X-brand unlisted gadget"])]])]

/-- The record extracted from `poolPayload`. -/
def poolRecord : Dict :=
  buildDetails (fieldsOf poolPayload)
    ["pool", "free parking", "x-brand unlisted gadget"]

set_option maxRecDepth 100000 in
/-- C5: `amenities_count` always equals the number of amenity entries
judged available, independent of how many keyword flags match; and for
the payload with exactly the three available items `Pool`,
`Free parking`, `X-brand unlisted gadget`, the extraction yields
`has_pool = True`, `has_free_parking = True`, `amenities_count = 3`,
and every other boolean amenity flag `False`. -/
theorem claim_C5 :
    (∀ (d : JSON) (r : Dict), extract_details (some d) = Except.ok r →
      dictGet r "amenities_count" =
        some (JSON.num (availableCount
          (objGetD (fieldsOf d) "amenities" (JSON.arr []))))) ∧
    extract_details (some poolPayload) = Except.ok poolRecord ∧
    dictGet poolRecord "has_pool" = some (JSON.bool true) ∧
    dictGet poolRecord "has_free_parking" = some (JSON.bool true) ∧
    dictGet poolRecord "amenities_count" = some (JSON.num 3) ∧
    (amenityFlagKeys.all (fun k =>
      (k == "has_pool") || (k == "has_free_parking") ||
      (match dictGet poolRecord k with
       | some (JSON.bool false) => true
       | _ => false))) = true := by
  refine ⟨?_, by rfl, by rfl, by rfl, by rfl, by rfl⟩
  intro d r h
  unfold extract_details at h
  simp only [] at h
  by_cases ht : truthy d = true
  · rw [if_pos ht] at h
    cases d with
    | obj dobj =>
      simp only [] at h
      cases hti : amenityTitles (objGetD dobj "amenities" (JSON.arr [])) with
      | error e => rw [hti] at h; exact absurd h (by simp)
      | ok titles =>
        rw [hti] at h
        simp only [Except.ok.injEq] at h
        subst h
        have hlen := amenityTitles_length _ _ hti
        show some (JSON.num (titles.length : Int)) = _
        rw [hlen]
        rfl
    | null => exact absurd h (by simp)
    | bool b => exact absurd h (by simp)
    | num n => exact absurd h (by simp)
    | str s => exact absurd h (by simp)
    | arr l => exact absurd h (by simp)
  · rw [if_neg ht] at h
    simp only [Except.ok.injEq] at h
    subst h
    cases d with
    | obj l =>
      have : l.isEmpty = true := by simpa [truthy] using ht
      rw [List.isEmpty_iff] at this
      subst this
      rfl
    | null => rfl
    | bool b => rfl
    | num n => rfl
    | str s => rfl
    | arr l => rfl

/-- Witness for C5: the general count law applied at `poolPayload`. -/
theorem claim_C5_witness :
    dictGet poolRecord "amenities_count" =
      some (JSON.num (availableCount
        (objGetD (fieldsOf poolPayload) "amenities" (JSON.arr [])))) :=
  claim_C5.1 poolPayload poolRecord (by rfl)

/-! ## Lemmas and claim: the merge in `run_scenario` (C1) -/

/-- In-place replacement leaves other keys untouched. -/
theorem lookupField_map_set (d : Dict) (k' : String) (v : JSON) (k : String)
    (hne : (k' == k) = false) :
    lookupField (d.map (fun p => if p.1 == k' then (k', v) else p)) k =
      lookupField d k := by
  induction d with
  | nil => rfl
  | cons a rest ih =>
    obtain ⟨ak, av⟩ := a
    simp only [List.map_cons]
    split
    · next hak =>
      have hak' : ak = k' := by simpa using hak
      subst hak'
      simp only [lookupField, hne, Bool.false_eq_true, if_false]
      exact ih
    · next hak =>
      simp only [lookupField]
      rw [ih]

/-- Appending a fresh binding leaves other keys untouched. -/
theorem lookupField_append_single (d : Dict) (k' : String) (v : JSON) (k : String)
    (hne : (k' == k) = false) :
    lookupField (d ++ [(k', v)]) k = lookupField d k := by
  induction d with
  | nil => simp [lookupField, hne]
  | cons a rest ih =>
    obtain ⟨ak, av⟩ := a
    simp only [List.cons_append, lookupField]
    rw [List.append_eq, ih]

/-- `d[k'] = v` does not change the binding of a different key. -/
theorem dictGet_dictSet_ne (d : Dict) (k' : String) (v : JSON) (k : String)
    (hne : k' ≠ k) :
    dictGet (dictSet d k' v) k = dictGet d k := by
  have hb : (k' == k) = false := by simpa using hne
  unfold dictGet dictSet
  by_cases hany : (d.any (fun p => p.1 == k')) = true
  · rw [if_pos hany]
    exact lookupField_map_set d k' v k hb
  · rw [if_neg hany]
    exact lookupField_append_single d k' v k hb

/-- Metadata stamping does not change any non-metadata key. -/
theorem stampMeta_get (l : Dict) (rid ci co : String) (n dfn g : Nat) (k : String)
    (h1 : k ≠ "run_id") (h2 : k ≠ "checkin_date") (h3 : k ≠ "checkout_date")
    (h4 : k ≠ "nights") (h5 : k ≠ "days_from_now") (h6 : k ≠ "guests") :
    dictGet (stampMeta l rid ci co n dfn g) k = dictGet l k := by
  unfold stampMeta
  rw [dictGet_dictSet_ne _ _ _ _ (fun e => h6 e.symm),
    dictGet_dictSet_ne _ _ _ _ (fun e => h5 e.symm),
    dictGet_dictSet_ne _ _ _ _ (fun e => h4 e.symm),
    dictGet_dictSet_ne _ _ _ _ (fun e => h3 e.symm),
    dictGet_dictSet_ne _ _ _ _ (fun e => h2 e.symm),
    dictGet_dictSet_ne _ _ _ _ (fun e => h1 e.symm)]

/-- A key outside a record's key list is unbound. -/
theorem lookupField_eq_none (d : Dict) (k : String) (h : k ∉ d.map Prod.fst) :
    lookupField d k = none := by
  induction d with
  | nil => rfl
  | cons a rest ih =>
    obtain ⟨ak, av⟩ := a
    simp only [List.map_cons, List.mem_cons, not_or] at h
    obtain ⟨h1, h2⟩ := h
    have hak : (ak == k) = false := by simpa using fun e => h1 e.symm
    simp only [lookupField, hak, Bool.false_eq_true, if_false]
    exact ih h2

/-- The detail loop keeps the record list length and acts pointwise. -/
theorem enrichAll_spec (gd : String → Option JSON) : ∀ (ls es : List Dict),
    enrichAll gd ls = Except.ok es →
    es.length = ls.length ∧
    ∀ i, i < ls.length →
      enrichListing gd (ls.getD i []) = Except.ok (es.getD i []) := by
  intro ls
  induction ls with
  | nil =>
    intro es h
    simp only [enrichAll, Except.ok.injEq] at h
    subst h
    exact ⟨rfl, fun i hi => absurd hi (by simp)⟩
  | cons l rest ih =>
    intro es h
    simp only [enrichAll] at h
    cases hl : enrichListing gd l with
    | error e => rw [hl] at h; exact absurd h (by simp)
    | ok l2 =>
      rw [hl] at h
      cases hrest : enrichAll gd rest with
      | error e => rw [hrest] at h; exact absurd h (by simp)
      | ok rest2 =>
        rw [hrest] at h
        simp only [Except.ok.injEq] at h
        subst h
        obtain ⟨hlen, hpt⟩ := ih rest2 hrest
        refine ⟨by simp [hlen], ?_⟩
        intro i hi
        cases i with
        | zero => simpa using hl
        | succ j =>
          simp only [List.getD_cons_succ]
          exact hpt j (by simpa using hi)

/-- A detail-fetch outcome `run_scenario` treats as a failure: the
fetch oracle returned `None` (swallowed exception) or a falsy payload. -/
def fetchFails : Option JSON → Bool
  | none => true
  | some d => !truthy d

/-- A failing fetch leaves the record exactly as the search phase
produced it. -/
theorem enrichListing_fail (gd : String → Option JSON) (l : Dict)
    (h : fetchFails (gd (roomIdOf l)) = true) :
    enrichListing gd l = Except.ok l := by
  unfold enrichListing
  cases hg : gd (roomIdOf l) with
  | none => rfl
  | some d =>
    rw [hg] at h
    simp only [fetchFails, Bool.not_eq_true'] at h
    simp [h]

/-- The key list of every search-phase record is `searchKeys`. -/
theorem search_listings_keys (pages : Nat → PageResponse) (check_in check_out : String)
    (guests : Nat) :
    ∀ d ∈ search_listings pages check_in check_out guests,
      d.map Prod.fst = searchKeys := by
  obtain ⟨posF, hinv⟩ :=
    searchGo_inv pages MAX_PAGES 0 0 [] ⟨List.Pairwise.nil, by simp⟩
  exact fun d hd => (hinv.2 d hd).2

set_option maxRecDepth 100000 in
/-- C1 (amended): for every listing whose detail fetch fails, the
merged output record of `run_scenario` is exactly the search record
with the run metadata stamped on — its search-level fields intact and
the record not dropped — but it contains NO EnrichedFields key at all:
the enrichment defaults are never merged in (the `if details:` guard of
line 824 skips `listing.update` entirely), so every EnrichedFields key
is absent rather than present at its default value. -/
theorem claim_C1 : ∀ (pages : Nat → PageResponse) (gd : String → Option JSON)
    (run_id : String) (days_from_now nights guests : Nat)
    (check_in check_out : String) (out : List Dict),
    run_scenario pages gd run_id days_from_now nights guests check_in check_out =
      Except.ok out →
    out.length = (search_listings pages check_in check_out guests).length ∧
    ∀ i, i < (search_listings pages check_in check_out guests).length →
      fetchFails (gd (roomIdOf
        ((search_listings pages check_in check_out guests).getD i []))) = true →
      out.getD i [] =
        stampMeta ((search_listings pages check_in check_out guests).getD i [])
          run_id check_in check_out nights days_from_now guests ∧
      (∀ k ∈ enrichedKeys, dictGet (out.getD i []) k = none) ∧
      (∀ k ∈ searchKeys, dictGet (out.getD i []) k =
        dictGet ((search_listings pages check_in check_out guests).getD i []) k) := by
  intro pages gd run_id days_from_now nights guests check_in check_out out h
  unfold run_scenario at h
  by_cases hemp : (search_listings pages check_in check_out guests).isEmpty = true
  · rw [if_pos hemp] at h
    simp only [Except.ok.injEq] at h
    subst h
    rw [List.isEmpty_iff] at hemp
    rw [hemp]
    exact ⟨rfl, fun i hi => absurd hi (by simp)⟩
  · rw [if_neg hemp] at h
    cases hen : enrichAll gd (search_listings pages check_in check_out guests) with
    | error e => rw [hen] at h; exact absurd h (by simp)
    | ok es =>
      rw [hen] at h
      simp only [Except.ok.injEq] at h
      subst h
      obtain ⟨hlen, hpt⟩ := enrichAll_spec gd _ es hen
      constructor
      · simp [hlen]
      · intro i hi hfail
        have hi' : i < es.length := by omega
        have hrow := hpt i hi
        rw [enrichListing_fail gd _ hfail] at hrow
        have hstamp : (es.map (fun l =>
            stampMeta l run_id check_in check_out nights days_from_now guests)).getD
              i [] =
            stampMeta (es.getD i []) run_id check_in check_out nights
              days_from_now guests := by
          rw [List.getD_eq_getElem _ _ (by simpa using hi'),
            List.getElem_map, List.getD_eq_getElem _ _ hi']
        have hes : es.getD i [] =
            (search_listings pages check_in check_out guests).getD i [] := by
          injection hrow with h'
          exact h'.symm
        rw [hstamp, hes]
        have hkeys : ((search_listings pages check_in check_out guests).getD i []).map
            Prod.fst = searchKeys := by
          apply search_listings_keys pages check_in check_out guests
          rw [List.getD_eq_getElem _ _ hi]
          exact List.getElem_mem _
        have hd1 : ∀ k ∈ enrichedKeys, k ∉ searchKeys ∧ k ≠ "run_id" ∧
            k ≠ "checkin_date" ∧ k ≠ "checkout_date" ∧ k ≠ "nights" ∧
            k ≠ "days_from_now" ∧ k ≠ "guests" := by decide
        have hd2 : ∀ k ∈ searchKeys, k ≠ "run_id" ∧ k ≠ "checkin_date" ∧
            k ≠ "checkout_date" ∧ k ≠ "nights" ∧ k ≠ "days_from_now" ∧
            k ≠ "guests" := by decide
        refine ⟨rfl, ?_, ?_⟩
        · intro k hk
          obtain ⟨h0, h1, h2, h3, h4, h5, h6⟩ := hd1 k hk
          rw [stampMeta_get _ _ _ _ _ _ _ _ h1 h2 h3 h4 h5 h6]
          apply lookupField_eq_none
          rw [hkeys]
          exact h0
        · intro k hk
          obtain ⟨h1, h2, h3, h4, h5, h6⟩ := hd2 k hk
          exact stampMeta_get _ _ _ _ _ _ _ _ h1 h2 h3 h4 h5 h6

/-- A search response whose only page carries one decodable result and
no next-page cursor. -/
def c1Body : JSON :=
  JSON.obj [("data", JSON.obj [("presentation", JSON.obj [("staysSearch",
    JSON.obj [("results", JSON.obj [("searchResults",
      JSON.arr [demoResOne])])])])])]

/-- The page oracle for the C1 scenario. -/
def c1Pages : Nat → PageResponse :=
  fun _ => PageResponse.httpResponse 200 (some c1Body)

/-- The merged output record of the C1 scenario for the listing whose
detail fetch failed: the search record with metadata stamped on. -/
def c1Merged : Dict := stampMeta demoRecOne "R" "ci" "co" 3 60 2

/-- Counterexample to C1 as stated: in a scenario retaining one
listing whose detail fetch fails, the merged output record does not
contain the EnrichedFields key `has_pool` at its default `False` — the
key is entirely absent from the record. -/
theorem claim_C1_counterexample :
    run_scenario c1Pages (fun _ => none) "R" 60 3 2 "ci" "co" =
      Except.ok [c1Merged] ∧
    dictGet c1Merged "has_pool" = none ∧
    "has_pool" ∈ enrichedKeys := by
  refine ⟨rfl, rfl, by decide⟩

/-- Witness for C1 (amended): in the concrete one-listing scenario
with a failing fetch, the output keeps one record equal to the stamped
search record, with `has_pool` absent. -/
theorem claim_C1_witness :
    [c1Merged].length = (search_listings c1Pages "ci" "co" 2).length ∧
    dictGet ([c1Merged].getD 0 []) "has_pool" = none := by
  have h := claim_C1 c1Pages (fun _ => none) "R" 60 3 2 "ci" "co" [c1Merged] (by rfl)
  refine ⟨h.1, ?_⟩
  have h2 := (h.2 0 (by decide) (by rfl)).2.1 "has_pool" (by decide)
  exact h2
